import Mathlib

/-!
Verification development for the TAAT agent's memory-and-learning core
(`src/memory_systems`, `src/learning_systems`, `src/agent_core/memory`).

The Python source is shallowly embedded: dict-shaped data becomes records
or association lists, floats become `ℚ`, fallible collaborator calls
become `Except`/explicit state threading, and randomness becomes oracle
parameters.  Each definition is translated from the named source
function; deviations (stand-in hash, external collaborators) are noted
in the doc comments.
-/

namespace Taat

/-! ## JSON values and canonical serialization

Models the Python payloads fed to `json.dumps(..., sort_keys=True)` in
`procedural.py:_generate_pattern_key`, `reinforcement.py:_get_state_key`
/ `_get_action_key`, and `pattern.py:_store_pattern`.  Objects are
association lists in insertion order, as in a Python dict. -/

/-- JSON-like value: the payload shapes hashed by the source.  `num`
covers Python floats (modelled exactly as rationals), `intg` ints. -/
inductive JVal where
  | null : JVal
  | bool (b : Bool) : JVal
  | intg (n : Int) : JVal
  | num (q : ℚ) : JVal
  | str (s : String) : JVal
  | arr (l : List JVal) : JVal
  | obj (kvs : List (String × JVal)) : JVal

/-- Lookup in a Python-dict association list: first binding wins. -/
def dictGet {α : Type} (l : List (String × α)) (k : String) : Option α :=
  (l.find? (fun p => p.1 = k)).map Prod.snd

/-- Lookup with a default, modelling Python `d.get(k, default)`. -/
def dictGetD {α : Type} (l : List (String × α)) (k : String) (d : α) : α :=
  (dictGet l k).getD d

/-- Python dict assignment `d[k] = v`: replace in place if the key
exists, else append. -/
def dictSet {α : Type} : List (String × α) → String → α → List (String × α)
  | [], k, v => [(k, v)]
  | p :: rest, k, v => if p.1 = k then (k, v) :: rest else p :: dictSet rest k v

/-- Ordering of object entries by key, as produced by `sort_keys=True`:
lexicographic comparison of the key strings (expressed on the
underlying character lists, which coincides with the string order —
see `keyLE_iff_le` — and computes inside the kernel). -/
def keyLE (p q : String × JVal) : Prop := p.1.data ≤ q.1.data

/-- The entry order is exactly the comparison of the key strings. -/
theorem keyLE_iff_le (p q : String × JVal) : keyLE p q ↔ p.1 ≤ q.1 :=
  String.le_iff_toList_le.symm

instance : DecidableRel keyLE :=
  fun p q => inferInstanceAs (Decidable (p.1.data ≤ q.1.data))

instance : IsTotal (String × JVal) keyLE :=
  ⟨fun p q => le_total p.1.data q.1.data⟩

instance : IsTrans (String × JVal) keyLE :=
  ⟨fun _ _ _ h h' => le_trans h h'⟩

/-- Strict version of `keyLE`; antisymmetric because `<` is asymmetric. -/
def keyLT (p q : String × JVal) : Prop := p.1.data < q.1.data

instance : IsAntisymm (String × JVal) keyLT :=
  ⟨fun _ _ h h' => absurd h' (not_lt_of_gt h)⟩

/-- Entry list of an object sorted by key (the effect of
`json.dumps(..., sort_keys=True)` on one object level). -/
def sortPairs (kvs : List (String × JVal)) : List (String × JVal) :=
  kvs.insertionSort keyLE

mutual

/-- Recursively sort every object's entries by key: the canonical form
whose plain serialization equals `json.dumps(value, sort_keys=True)`. -/
def sortJson : JVal → JVal
  | JVal.null => JVal.null
  | JVal.bool b => JVal.bool b
  | JVal.intg n => JVal.intg n
  | JVal.num q => JVal.num q
  | JVal.str s => JVal.str s
  | JVal.arr l => JVal.arr (sortJsonList l)
  | JVal.obj kvs => JVal.obj (sortPairs (sortJsonKvs kvs))

/-- Pointwise `sortJson` over an array's elements. -/
def sortJsonList : List JVal → List JVal
  | [] => []
  | x :: xs => sortJson x :: sortJsonList xs

/-- Pointwise `sortJson` over an object's values. -/
def sortJsonKvs : List (String × JVal) → List (String × JVal)
  | [] => []
  | (k, v) :: xs => (k, sortJson v) :: sortJsonKvs xs

end

/-- String literal rendering.  Escaping of special characters inside
the string is not modelled; no claim depends on it (only on `dumps`
being a function of the canonical form). -/
def jQuote (s : String) : String := "\"" ++ s ++ "\""

mutual

/-- Plain JSON serializer (object entries emitted in list order), with
the separators used by Python's `json.dumps` defaults. -/
def dumpsRaw : JVal → String
  | JVal.null => "null"
  | JVal.bool b => if b then "true" else "false"
  | JVal.intg n => toString n
  | JVal.num q => toString q
  | JVal.str s => jQuote s
  | JVal.arr l => "[" ++ dumpsRawList l ++ "]"
  | JVal.obj kvs => "\x7b" ++ dumpsRawKvs kvs ++ "\x7d"

/-- Comma-joined serialization of array elements. -/
def dumpsRawList : List JVal → String
  | [] => ""
  | [x] => dumpsRaw x
  | x :: y :: xs => dumpsRaw x ++ ", " ++ dumpsRawList (y :: xs)

/-- Comma-joined serialization of object entries. -/
def dumpsRawKvs : List (String × JVal) → String
  | [] => ""
  | [(k, v)] => jQuote k ++ ": " ++ dumpsRaw v
  | (k, v) :: y :: xs => jQuote k ++ ": " ++ dumpsRaw v ++ ", " ++ dumpsRawKvs (y :: xs)

end

/-- Model of `json.dumps(value, sort_keys=True)`: serialize the
canonically key-sorted form. -/
def dumps (v : JVal) : String := dumpsRaw (sortJson v)

/-- Deterministic stand-in for `hashlib.md5(...).hexdigest()`.  Every
theorem below depends only on the hash being a function of its input
string (and hash outputs containing no separator characters is not
relied upon); the concrete mixing is irrelevant. -/
def md5Hex (s : String) : String :=
  let h := s.data.foldl (fun a c => (a * 131 + c.toNat) % 4294967296) 5381
  String.mk (Nat.toDigits 16 h)

/-- Model of `ProceduralMemory._generate_pattern_key`
(`procedural.py` lines 32-44). -/
def generatePatternKey (pattern_data : JVal) : String :=
  md5Hex (dumps pattern_data)

/-- State or action value fed to the reinforcement engine: the source
branches on `isinstance(x, str)` / `isinstance(x, dict)`; the final
catch-all branch (hash of `str(x)`) is not needed by any claim. -/
inductive RLVal where
  | vstr (s : String) : RLVal
  | vdict (kvs : List (String × JVal)) : RLVal

/-- Model of `ReinforcementLearning._get_state_key`
(`reinforcement.py` lines 47-68). -/
def getStateKey : RLVal → String
  | RLVal.vstr s => "state:" ++ s
  | RLVal.vdict kvs => "state:" ++ md5Hex (dumps (JVal.obj kvs))

/-- Model of `ReinforcementLearning._get_action_key`
(`reinforcement.py` lines 70-91). -/
def getActionKey : RLVal → String
  | RLVal.vstr s => "action:" ++ s
  | RLVal.vdict kvs => "action:" ++ md5Hex (dumps (JVal.obj kvs))

/-- Model of `ReinforcementLearning._get_state_action_key`
(`reinforcement.py` lines 93-104). -/
def stateActionKey (state_key action_key : String) : String :=
  state_key ++ "|" ++ action_key

/-! ## Structural equality up to key order (for claim C6) -/

mutual

/-- Structural equality of JSON values in which objects may list their
entries in different orders (at every nesting level) but are otherwise
identical; arrays keep their order. -/
inductive JEquiv : JVal → JVal → Prop where
  | null : JEquiv JVal.null JVal.null
  | bool (b : Bool) : JEquiv (JVal.bool b) (JVal.bool b)
  | intg (n : Int) : JEquiv (JVal.intg n) (JVal.intg n)
  | num (q : ℚ) : JEquiv (JVal.num q) (JVal.num q)
  | str (s : String) : JEquiv (JVal.str s) (JVal.str s)
  | arr {l₁ l₂ : List JVal} :
      JEquivList l₁ l₂ → JEquiv (JVal.arr l₁) (JVal.arr l₂)
  | obj {kvs₁ mid kvs₂ : List (String × JVal)} :
      kvs₁.Perm mid → JEquivKvs mid kvs₂ →
      JEquiv (JVal.obj kvs₁) (JVal.obj kvs₂)

/-- Elementwise structural equality of arrays (order preserved). -/
inductive JEquivList : List JVal → List JVal → Prop where
  | nil : JEquivList [] []
  | cons {x y : JVal} {xs ys : List JVal} :
      JEquiv x y → JEquivList xs ys → JEquivList (x :: xs) (y :: ys)

/-- Entrywise structural equality of object entry lists: keys agree
positionally, values are structurally equal. -/
inductive JEquivKvs : List (String × JVal) → List (String × JVal) → Prop where
  | nil : JEquivKvs [] []
  | cons {k : String} {v₁ v₂ : JVal} {xs ys : List (String × JVal)} :
      JEquiv v₁ v₂ → JEquivKvs xs ys → JEquivKvs ((k, v₁) :: xs) ((k, v₂) :: ys)

end

/-- Well-formedness of a payload that originated from Python data: at
every level an object's keys are distinct (Python dicts cannot hold
duplicate keys). -/
inductive JWF : JVal → Prop where
  | null : JWF JVal.null
  | bool (b : Bool) : JWF (JVal.bool b)
  | intg (n : Int) : JWF (JVal.intg n)
  | num (q : ℚ) : JWF (JVal.num q)
  | str (s : String) : JWF (JVal.str s)
  | arr {l : List JVal} : (∀ x ∈ l, JWF x) → JWF (JVal.arr l)
  | obj {kvs : List (String × JVal)} :
      (kvs.map Prod.fst).Nodup → (∀ p ∈ kvs, JWF p.2) → JWF (JVal.obj kvs)

theorem sortJsonKvs_map_fst (kvs : List (String × JVal)) :
    (sortJsonKvs kvs).map Prod.fst = kvs.map Prod.fst := by
  induction kvs with
  | nil => rfl
  | cons p rest ih => cases p; simp [sortJsonKvs, ih]

theorem sortPairs_perm (kvs : List (String × JVal)) : (sortPairs kvs).Perm kvs :=
  List.perm_insertionSort keyLE kvs

theorem sortPairs_sorted (kvs : List (String × JVal)) :
    (sortPairs kvs).Sorted keyLE :=
  List.sorted_insertionSort keyLE kvs

/-- Two key-sorted association lists with the same distinct-key content
are equal: sorting by key is canonical when keys are distinct. -/
theorem sortPairs_eq_of_perm {l₁ l₂ : List (String × JVal)}
    (hp : l₁.Perm l₂) (hnd : (l₁.map Prod.fst).Nodup) :
    sortPairs l₁ = sortPairs l₂ := by
  have hperm : (sortPairs l₁).Perm (sortPairs l₂) :=
    ((sortPairs_perm l₁).trans hp).trans (sortPairs_perm l₂).symm
  have hnd₁ : ((sortPairs l₁).map Prod.fst).Nodup :=
    ((sortPairs_perm l₁).map Prod.fst).nodup_iff.mpr hnd
  have hnd₂ : ((sortPairs l₂).map Prod.fst).Nodup :=
    (hperm.map Prod.fst).nodup_iff.mp hnd₁
  have hstrict : ∀ (l : List (String × JVal)), l.Sorted keyLE →
      (l.map Prod.fst).Nodup → l.Sorted keyLT := by
    intro l hs hn
    have hne : l.Pairwise (fun p q => p.1 ≠ q.1) :=
      (List.pairwise_map.mp hn)
    exact (hs.and hne).imp
      (fun h => lt_of_le_of_ne h.1 (fun e => h.2 (String.toList_inj.mp e)))
  exact List.eq_of_perm_of_sorted hperm
    (hstrict _ (sortPairs_sorted l₁) hnd₁)
    (hstrict _ (sortPairs_sorted l₂) hnd₂)

theorem sortJsonKvs_perm {l₁ l₂ : List (String × JVal)} (h : l₁.Perm l₂) :
    (sortJsonKvs l₁).Perm (sortJsonKvs l₂) := by
  have : ∀ l : List (String × JVal),
      sortJsonKvs l = l.map (fun p => (p.1, sortJson p.2)) := by
    intro l
    induction l with
    | nil => rfl
    | cons p rest ih => cases p; simp [sortJsonKvs, ih]
  rw [this, this]
  exact h.map _

mutual

/-- Size measure used to induct over nested JSON structure. -/
def jsize : JVal → Nat
  | JVal.null => 1
  | JVal.bool _ => 1
  | JVal.intg _ => 1
  | JVal.num _ => 1
  | JVal.str _ => 1
  | JVal.arr l => jsizeList l + 1
  | JVal.obj kvs => jsizeKvs kvs + 1

/-- Combined size of a list of values. -/
def jsizeList : List JVal → Nat
  | [] => 0
  | x :: xs => jsize x + jsizeList xs

/-- Combined size of an object's entries. -/
def jsizeKvs : List (String × JVal) → Nat
  | [] => 0
  | (_, v) :: xs => jsize v + jsizeKvs xs

end

theorem jsize_pos (a : JVal) : 0 < jsize a := by
  cases a <;> simp [jsize]

theorem jsizeList_pos_cons (x : JVal) (xs : List JVal) : 0 < jsizeList (x :: xs) := by
  simp only [jsizeList]
  have := jsize_pos x
  omega

theorem jsizeKvs_pos_cons (p : String × JVal) (xs : List (String × JVal)) :
    0 < jsizeKvs (p :: xs) := by
  cases p with
  | mk k v =>
    simp only [jsizeKvs]
    have := jsize_pos v
    omega

theorem jsize_le_of_mem_list {x : JVal} : ∀ {l : List JVal}, x ∈ l → jsize x ≤ jsizeList l := by
  intro l
  induction l with
  | nil => intro h; cases h
  | cons y ys ih =>
      intro h
      rcases List.mem_cons.mp h with rfl | h
      · simp [jsizeList]
      · have := ih h
        simp [jsizeList]; omega

theorem jsize_le_of_mem_kvs {p : String × JVal} :
    ∀ {kvs : List (String × JVal)}, p ∈ kvs → jsize p.2 ≤ jsizeKvs kvs := by
  intro kvs
  induction kvs with
  | nil => intro h; cases h
  | cons q qs ih =>
      intro h
      rcases List.mem_cons.mp h with rfl | h
      · cases p; simp [jsizeKvs]
      · have := ih h
        cases q; simp [jsizeKvs]; omega

theorem jsizeKvs_eq_of_perm {l₁ l₂ : List (String × JVal)} (h : l₁.Perm l₂) :
    jsizeKvs l₁ = jsizeKvs l₂ := by
  induction h with
  | nil => rfl
  | cons x _ ih => cases x; simp [jsizeKvs, ih]
  | swap x y _ => cases x; cases y; simp [jsizeKvs]; omega
  | trans _ _ ih₁ ih₂ => exact ih₁.trans ih₂

theorem sortJson_eq_of_equiv_aux : ∀ n : ℕ,
    (∀ a b, jsize a ≤ n → JEquiv a b → JWF a → sortJson a = sortJson b)
    ∧ (∀ l₁ l₂, jsizeList l₁ ≤ n → JEquivList l₁ l₂ → (∀ x ∈ l₁, JWF x) →
        sortJsonList l₁ = sortJsonList l₂)
    ∧ (∀ kvs₁ kvs₂, jsizeKvs kvs₁ ≤ n → JEquivKvs kvs₁ kvs₂ →
        (∀ p ∈ kvs₁, JWF p.2) → sortJsonKvs kvs₁ = sortJsonKvs kvs₂) := by
  intro n
  induction n with
  | zero =>
      refine ⟨fun a _ hsz _ _ => absurd (lt_of_lt_of_le (jsize_pos a) hsz) (lt_irrefl 0),
        ?_, ?_⟩
      · intro l₁ l₂ hsz heq _
        cases heq with
        | nil => rfl
        | cons hx hrest =>
            exact absurd (lt_of_lt_of_le (jsizeList_pos_cons _ _) hsz) (lt_irrefl 0)
      · intro kvs₁ kvs₂ hsz heq _
        cases heq with
        | nil => rfl
        | cons hv hrest =>
            exact absurd (lt_of_lt_of_le (jsizeKvs_pos_cons _ _) hsz) (lt_irrefl 0)
  | succ m ih =>
      obtain ⟨ih1, ih2, ih3⟩ := ih
      have Q1 : ∀ a b, jsize a ≤ m + 1 → JEquiv a b → JWF a →
          sortJson a = sortJson b := by
        intro a b hsz heq hwf
        cases heq with
        | null => rfl
        | bool b => rfl
        | intg n => rfl
        | num q => rfl
        | str s => rfl
        | arr hf =>
            rename_i l₁ l₂
            cases hwf with
            | arr hmem =>
              simp only [sortJson]
              have hsz' : jsizeList l₁ ≤ m := by
                simp only [jsize] at hsz; omega
              rw [ih2 l₁ l₂ hsz' hf hmem]
        | obj hperm hf =>
            rename_i kvs₁ mid kvs₂
            cases hwf with
            | obj hnd hmem =>
              simp only [sortJson]
              have hndS : ((sortJsonKvs kvs₁).map Prod.fst).Nodup := by
                rw [sortJsonKvs_map_fst]; exact hnd
              have step₁ : sortPairs (sortJsonKvs kvs₁) = sortPairs (sortJsonKvs mid) :=
                sortPairs_eq_of_perm (sortJsonKvs_perm hperm) hndS
              have hmidWF : ∀ p ∈ mid, JWF p.2 := fun p hp =>
                hmem p (hperm.mem_iff.mpr hp)
              have hmidSz : jsizeKvs mid ≤ m := by
                rw [← jsizeKvs_eq_of_perm hperm]
                simp only [jsize] at hsz; omega
              rw [step₁, ih3 mid kvs₂ hmidSz hf hmidWF]
      refine ⟨Q1, ?_, ?_⟩
      · intro l₁
        induction l₁ with
        | nil =>
            intro l₂ _ heq _
            cases heq; rfl
        | cons x xs ihx =>
            intro l₂ hsz heq hmem
            cases heq with
            | cons hx hrest =>
                rename_i y ys
                simp only [sortJsonList]
                simp only [jsizeList] at hsz
                have hx' : jsize x ≤ m + 1 := by omega
                have hxs : jsizeList xs ≤ m + 1 := by omega
                rw [Q1 x y hx' hx (hmem x (by simp))]
                rw [ihx ys hxs hrest (fun z hz => hmem z (by simp [hz]))]
      · intro kvs₁
        induction kvs₁ with
        | nil =>
            intro kvs₂ _ heq _
            cases heq; rfl
        | cons p xs ihx =>
            intro kvs₂ hsz heq hmem
            cases p with
            | mk k v₁ =>
              cases heq with
              | cons hv hrest =>
                  rename_i v₂ ys
                  simp only [sortJsonKvs]
                  simp only [jsizeKvs] at hsz
                  have hv' : jsize v₁ ≤ m + 1 := by omega
                  have hxs : jsizeKvs xs ≤ m + 1 := by omega
                  rw [Q1 v₁ v₂ hv' hv (hmem (k, v₁) (by simp))]
                  rw [ihx ys hxs hrest (fun z hz => hmem z (by simp [hz]))]

/-- Key canonicalization: structurally equal well-formed values that
differ only in object key order have the same canonical form. -/
theorem sortJson_eq_of_equiv {a b : JVal} (h : JEquiv a b) (hwf : JWF a) :
    sortJson a = sortJson b :=
  (sortJson_eq_of_equiv_aux (jsize a)).1 a b le_rfl h hwf

/-- Canonical serializations of structurally equal well-formed values
agree, hence so does any hash of them. -/
theorem dumps_eq_of_equiv {a b : JVal} (h : JEquiv a b) (hwf : JWF a) :
    dumps a = dumps b := by
  unfold dumps
  rw [sortJson_eq_of_equiv h hwf]

/-! ## Reinforcement engine (`learning_systems/reinforcement.py`)

State and update rule of `ReinforcementLearning`.  The Python dicts
`q_values` and `state_transitions` become insertion-ordered association
lists; floats become `ℚ`; the two `random` draws in `select_action`
become oracle parameters. -/

/-- Tunables copied from `ReinforcementLearningConfig`
(`learning_systems/config.py`). -/
structure RLConfig where
  learning_rate : ℚ
  discount_factor : ℚ
  exploration_rate : ℚ
  min_exploration_rate : ℚ
  exploration_decay : ℚ
  reward_scale : ℚ

/-- Default values of `ReinforcementLearningConfig`. -/
def defaultRLConfig : RLConfig :=
  { learning_rate := 1/10
    discount_factor := 9/10
    exploration_rate := 1/5
    min_exploration_rate := 1/100
    exploration_decay := 199/200
    reward_scale := 1 }

/-- Entry appended to `self.action_history` by `select_action`. -/
structure RLHistEntry where
  state : RLVal
  action : RLVal
  htype : String
  q_value : Option ℚ

/-- Mutable state of a `ReinforcementLearning` instance. -/
structure RLState where
  q_values : List (String × ℚ)
  state_transitions : List (String × ℕ)
  exploration_rate : ℚ
  action_history : List RLHistEntry

/-- State after `ReinforcementLearning.__init__`. -/
def initRLState (cfg : RLConfig) : RLState :=
  { q_values := []
    state_transitions := []
    exploration_rate := cfg.exploration_rate
    action_history := [] }

/-- Python `max(l)` for a nonempty list, `0.0` for an empty one, as in
`max(next_q_values) if next_q_values else 0.0`. -/
def listMax : List ℚ → ℚ
  | [] => 0
  | x :: xs => xs.foldl max x

/-- The maximum next-state Q-value computed by `update_q_value`
(`reinforcement.py` lines 133-139): values of all stored entries whose
key starts with the next state's key followed by the separator. -/
def maxNextQ (q_values : List (String × ℚ)) (next_state_key : String) : ℚ :=
  listMax ((q_values.filter
    (fun p => (next_state_key ++ "|").isPrefixOf p.1)).map Prod.snd)

/-- Model of `ReinforcementLearning.update_q_value`
(`reinforcement.py` lines 106-159); returns the new Q-value and the
updated engine state. -/
def updateQValue (cfg : RLConfig) (st : RLState) (state action : RLVal)
    (reward : ℚ) (next_state : RLVal) : ℚ × RLState :=
  let scaled_reward := reward * cfg.reward_scale
  let state_key := getStateKey state
  let action_key := getActionKey action
  let next_state_key := getStateKey next_state
  let state_action_key := stateActionKey state_key action_key
  let current_q := dictGetD st.q_values state_action_key 0
  let max_next_q := maxNextQ st.q_values next_state_key
  let new_q := current_q + cfg.learning_rate *
    (scaled_reward + cfg.discount_factor * max_next_q - current_q)
  let transition_key := state_key ++ "|" ++ next_state_key
  (new_q,
    { st with
      q_values := dictSet st.q_values state_action_key new_q
      state_transitions := dictSet st.state_transitions transition_key
        (dictGetD st.state_transitions transition_key 0 + 1)
      exploration_rate := max cfg.min_exploration_rate
        (st.exploration_rate * cfg.exploration_decay) })

/-- Model of `ReinforcementLearning.select_action`
(`reinforcement.py` lines 161-207).  `rand_draw` is the value of
`random.random()` and `rand_choice` selects the index drawn by
`random.choice` (reduced modulo the list length). -/
def selectAction (st : RLState) (rand_draw : ℚ) (rand_choice : ℕ)
    (state : RLVal) (possible_actions : List RLVal) : Option RLVal × RLState :=
  match possible_actions with
  | [] => (none, st)
  | a₀ :: rest =>
    if rand_draw < st.exploration_rate then
      let selected := (a₀ :: rest).get
        ⟨rand_choice % (a₀ :: rest).length, Nat.mod_lt _ (by simp)⟩
      (some selected,
        { st with action_history := st.action_history ++
            [⟨state, selected, "exploration", none⟩] })
    else
      let state_key := getStateKey state
      let q_pairs := (a₀ :: rest).map (fun a =>
        (a, dictGetD st.q_values (stateActionKey state_key (getActionKey a)) 0))
      match List.insertionSort (fun p q : RLVal × ℚ => q.2 ≤ p.2) q_pairs with
      | [] => (none, st)
      | best :: _ =>
        (some best.1,
          { st with action_history := st.action_history ++
              [⟨state, best.1, "exploitation", some best.2⟩] })

theorem dictGet_dictSet_self {α : Type} (l : List (String × α)) (k : String) (v : α) :
    dictGet (dictSet l k v) k = some v := by
  induction l with
  | nil => simp [dictGet, dictSet]
  | cons p rest ih =>
      by_cases h : p.1 = k
      · simp [dictSet, h, dictGet]
      · simp only [dictSet, if_neg h]
        simp only [dictGet] at ih ⊢
        rw [List.find?_cons_of_neg _ (by simpa using h)]
        exact ih

/-! ## Claims C5, C6, C8, C10 -/

/-- C6: key canonicalization is order-independent across components —
for any two structurally-equal dict payloads that differ only in key
order (`JEquiv`, with Python-dict well-formedness `JWF`), the
reinforcement engine's state/action key derivation and the procedural
tier's pattern-key derivation each produce identical keys. -/
theorem claim_C6_key_canonicalization_order_independent
    (d₁ d₂ : List (String × JVal))
    (heq : JEquiv (JVal.obj d₁) (JVal.obj d₂))
    (hwf : JWF (JVal.obj d₁)) :
    getStateKey (RLVal.vdict d₁) = getStateKey (RLVal.vdict d₂)
    ∧ getActionKey (RLVal.vdict d₁) = getActionKey (RLVal.vdict d₂)
    ∧ generatePatternKey (JVal.obj d₁) = generatePatternKey (JVal.obj d₂) := by
  have hd : dumps (JVal.obj d₁) = dumps (JVal.obj d₂) := dumps_eq_of_equiv heq hwf
  exact ⟨by simp [getStateKey, hd], by simp [getActionKey, hd],
    by simp [generatePatternKey, hd]⟩

/-- Witness for C6 at the concrete payloads
`[("a", 1), ("b", 2)]` and `[("b", 2), ("a", 1)]`. -/
theorem claim_C6_witness :
    JEquiv (JVal.obj [("a", JVal.intg 1), ("b", JVal.intg 2)])
        (JVal.obj [("b", JVal.intg 2), ("a", JVal.intg 1)])
    ∧ JWF (JVal.obj [("a", JVal.intg 1), ("b", JVal.intg 2)])
    ∧ generatePatternKey (JVal.obj [("a", JVal.intg 1), ("b", JVal.intg 2)])
        = generatePatternKey (JVal.obj [("b", JVal.intg 2), ("a", JVal.intg 1)]) := by
  have heq : JEquiv (JVal.obj [("a", JVal.intg 1), ("b", JVal.intg 2)])
      (JVal.obj [("b", JVal.intg 2), ("a", JVal.intg 1)]) :=
    JEquiv.obj (List.Perm.swap _ _ _)
      (JEquivKvs.cons (JEquiv.intg 2) (JEquivKvs.cons (JEquiv.intg 1) JEquivKvs.nil))
  have hwf : JWF (JVal.obj [("a", JVal.intg 1), ("b", JVal.intg 2)]) := by
    refine JWF.obj (by simp) ?_
    intro p hp
    rcases List.mem_cons.mp hp with rfl | hp
    · exact JWF.intg 1
    · rcases List.mem_cons.mp hp with rfl | hp
      · exact JWF.intg 2
      · cases hp
  exact ⟨heq, hwf,
    (claim_C6_key_canonicalization_order_independent _ _ heq hwf).2.2⟩

/-- C5: `update_q_value` performs the tabular Q-learning update
`Q(s,a) += lr * (reward*reward_scale + discount*maxNextQ − Q(s,a))`,
with `maxNextQ` the maximum stored Q-value over state-action pairs
seen from the next state (default 0); and at state `"s1"`, action
`"a1"`, reward 1, next state `"s2"`, with the default configuration
(lr 0.1, discount 0.9, reward scale 1) and an initially empty table,
the updated Q-value is 0.1. -/
theorem claim_C5_q_learning_update :
    (∀ (cfg : RLConfig) (st : RLState) (state action : RLVal) (reward : ℚ)
        (next_state : RLVal),
      (updateQValue cfg st state action reward next_state).1 =
        dictGetD st.q_values
            (stateActionKey (getStateKey state) (getActionKey action)) 0
          + cfg.learning_rate *
            (reward * cfg.reward_scale
              + cfg.discount_factor * maxNextQ st.q_values (getStateKey next_state)
              - dictGetD st.q_values
                  (stateActionKey (getStateKey state) (getActionKey action)) 0)
      ∧ dictGet (updateQValue cfg st state action reward next_state).2.q_values
            (stateActionKey (getStateKey state) (getActionKey action))
          = some (updateQValue cfg st state action reward next_state).1)
    ∧ (updateQValue defaultRLConfig (initRLState defaultRLConfig)
        (RLVal.vstr "s1") (RLVal.vstr "a1") 1 (RLVal.vstr "s2")).1 = 1/10 := by
  refine ⟨fun cfg st state action reward next_state => ⟨rfl, ?_⟩, ?_⟩
  · exact dictGet_dictSet_self _ _ _
  · simp only [updateQValue, initRLState, defaultRLConfig, maxNextQ, listMax,
      dictGetD, dictGet, List.find?_nil, List.filter_nil, List.map_nil,
      Option.map_none, Option.getD_none]
    norm_num

/-- C8: the exploration rate is non-increasing from one `update_q_value`
call to the next and never drops below `min_exploration_rate`, provided
the configured decay factor is at most 1 and the minimum rate is
non-negative (both true of the shipped configuration). -/
theorem claim_C8_exploration_rate_monotone (cfg : RLConfig)
    (hdecay : cfg.exploration_decay ≤ 1)
    (hmin : 0 ≤ cfg.min_exploration_rate)
    (st : RLState) (s₁ a₁ n₁ s₂ a₂ n₂ : RLVal) (r₁ r₂ : ℚ) :
    cfg.min_exploration_rate
        ≤ ((updateQValue cfg st s₁ a₁ r₁ n₁).2).exploration_rate
    ∧ ((updateQValue cfg (updateQValue cfg st s₁ a₁ r₁ n₁).2 s₂ a₂ r₂ n₂).2).exploration_rate
        ≤ ((updateQValue cfg st s₁ a₁ r₁ n₁).2).exploration_rate
    ∧ cfg.min_exploration_rate
        ≤ ((updateQValue cfg (updateQValue cfg st s₁ a₁ r₁ n₁).2 s₂ a₂ r₂ n₂).2).exploration_rate := by
  have h₁ : ((updateQValue cfg st s₁ a₁ r₁ n₁).2).exploration_rate
      = max cfg.min_exploration_rate (st.exploration_rate * cfg.exploration_decay) := rfl
  have hpos : (0 : ℚ) ≤ ((updateQValue cfg st s₁ a₁ r₁ n₁).2).exploration_rate := by
    rw [h₁]; exact le_trans hmin (le_max_left _ _)
  refine ⟨by rw [h₁]; exact le_max_left _ _, ?_, le_max_left _ _⟩
  exact max_le (by rw [h₁]; exact le_max_left _ _)
    (mul_le_of_le_one_right hpos hdecay)

/-- Witness for C8 with the default configuration and two updates from
the initial state. -/
theorem claim_C8_witness :
    defaultRLConfig.exploration_decay ≤ 1
    ∧ 0 ≤ defaultRLConfig.min_exploration_rate
    ∧ (defaultRLConfig.min_exploration_rate
        ≤ ((updateQValue defaultRLConfig (initRLState defaultRLConfig)
            (RLVal.vstr "s1") (RLVal.vstr "a1") 1 (RLVal.vstr "s2")).2).exploration_rate
      ∧ ((updateQValue defaultRLConfig
            (updateQValue defaultRLConfig (initRLState defaultRLConfig)
              (RLVal.vstr "s1") (RLVal.vstr "a1") 1 (RLVal.vstr "s2")).2
            (RLVal.vstr "s2") (RLVal.vstr "a1") 1 (RLVal.vstr "s3")).2).exploration_rate
          ≤ ((updateQValue defaultRLConfig (initRLState defaultRLConfig)
              (RLVal.vstr "s1") (RLVal.vstr "a1") 1 (RLVal.vstr "s2")).2).exploration_rate
      ∧ defaultRLConfig.min_exploration_rate
          ≤ ((updateQValue defaultRLConfig
              (updateQValue defaultRLConfig (initRLState defaultRLConfig)
                (RLVal.vstr "s1") (RLVal.vstr "a1") 1 (RLVal.vstr "s2")).2
              (RLVal.vstr "s2") (RLVal.vstr "a1") 1 (RLVal.vstr "s3")).2).exploration_rate) :=
  ⟨by norm_num [defaultRLConfig], by norm_num [defaultRLConfig],
    claim_C8_exploration_rate_monotone defaultRLConfig
      (by norm_num [defaultRLConfig]) (by norm_num [defaultRLConfig])
      (initRLState defaultRLConfig) _ _ _ _ _ _ 1 1⟩

/-- C10: `select_action` with an empty candidate list returns `None`
and leaves the engine state (including the action history) unchanged;
with a non-empty candidate list it returns a member of the list and
appends exactly one entry to the action history — for every state and
every outcome of the two random draws. -/
theorem claim_C10_select_action
    (st : RLState) (rand_draw : ℚ) (rand_choice : ℕ) (state : RLVal)
    (possible_actions : List RLVal) :
    (possible_actions = [] →
      selectAction st rand_draw rand_choice state possible_actions = (none, st))
    ∧ (possible_actions ≠ [] →
      ∃ a, (selectAction st rand_draw rand_choice state possible_actions).1 = some a
        ∧ a ∈ possible_actions
        ∧ ((selectAction st rand_draw rand_choice state possible_actions).2).action_history.length
            = st.action_history.length + 1) := by
  constructor
  · intro h; subst h; rfl
  · intro hne
    match possible_actions with
    | [] => exact absurd rfl hne
    | a₀ :: rest =>
      by_cases hexp : rand_draw < st.exploration_rate
      · refine ⟨(a₀ :: rest).get
          ⟨rand_choice % (a₀ :: rest).length, Nat.mod_lt _ (by simp)⟩, ?_, ?_, ?_⟩
        · simp [selectAction, hexp]
        · exact List.get_mem _ _ _
        · simp [selectAction, hexp]
      · rcases hs : List.insertionSort (fun p q : RLVal × ℚ => q.2 ≤ p.2)
            ((a₀ :: rest).map (fun a =>
              (a, dictGetD st.q_values
                (stateActionKey (getStateKey state) (getActionKey a)) 0))) with
          _ | ⟨best, others⟩
        · exfalso
          have hp := List.perm_insertionSort (fun p q : RLVal × ℚ => q.2 ≤ p.2)
            ((a₀ :: rest).map (fun a =>
              (a, dictGetD st.q_values
                (stateActionKey (getStateKey state) (getActionKey a)) 0)))
          rw [hs] at hp
          have := hp.length_eq
          simp at this
        · have hmem : best ∈ (a₀ :: rest).map (fun a =>
              (a, dictGetD st.q_values
                (stateActionKey (getStateKey state) (getActionKey a)) 0)) := by
            have hp := List.perm_insertionSort (fun p q : RLVal × ℚ => q.2 ≤ p.2)
              ((a₀ :: rest).map (fun a =>
                (a, dictGetD st.q_values
                  (stateActionKey (getStateKey state) (getActionKey a)) 0)))
            rw [hs] at hp
            exact hp.mem_iff.mp (by simp)
          obtain ⟨a, ha, hae⟩ := List.mem_map.mp hmem
          refine ⟨best.1, ?_, ?_, ?_⟩
          · simp only [selectAction, if_neg hexp]
            rw [hs]
          · rw [← hae]; exact ha
          · simp only [selectAction, if_neg hexp]
            rw [hs]
            simp

/-- Witness for C10 at a concrete non-empty candidate list. -/
theorem claim_C10_witness :
    ([RLVal.vstr "a1", RLVal.vstr "a2"] : List RLVal) ≠ []
    ∧ ∃ a, (selectAction (initRLState defaultRLConfig) (1/2) 0 (RLVal.vstr "s1")
          [RLVal.vstr "a1", RLVal.vstr "a2"]).1 = some a
        ∧ a ∈ [RLVal.vstr "a1", RLVal.vstr "a2"]
        ∧ ((selectAction (initRLState defaultRLConfig) (1/2) 0 (RLVal.vstr "s1")
            [RLVal.vstr "a1", RLVal.vstr "a2"]).2).action_history.length
            = (initRLState defaultRLConfig).action_history.length + 1 :=
  ⟨by simp,
    (claim_C10_select_action (initRLState defaultRLConfig) (1/2) 0 (RLVal.vstr "s1")
      [RLVal.vstr "a1", RLVal.vstr "a2"]).2 (by simp)⟩

/-! ## Performance engine (`learning_systems/performance.py`)

`PerformanceTracker.calculate_metrics` is a pure function of the
outcome records handed back by the persistence collaborator
(`db_manager.get_trade_outcomes`, an external append-only outcome
store); the retrieved list is therefore a parameter here. -/

/-- Tunables copied from `PerformanceConfig` (`learning_systems/config.py`). -/
structure PerformanceConfig where
  metrics_window_size : ℕ
  min_sample_size : ℕ
  confidence_threshold : ℚ
  report_frequency : ℕ

/-- Default values of `PerformanceConfig`. -/
def defaultPerformanceConfig : PerformanceConfig :=
  { metrics_window_size := 100
    min_sample_size := 5
    confidence_threshold := 3/5
    report_frequency := 24 }

/-- One retrieved trade-outcome record: the two fields read by
`calculate_metrics` (`o.get("outcome")`, `o.get("profit_loss", 0)`).
A record without an outcome key behaves like any string that is
neither "success" nor "failure". -/
structure TradeOutcome where
  outcome : String
  profit_loss : ℚ

/-- Full-metrics record built by `calculate_metrics` (computation
fields only; the generated id and timestamp are external inputs).
`profit_factor = none` models the `float('inf')` branch. -/
structure MetricsRecord where
  total_trades : ℕ
  successful_trades : ℕ
  failed_trades : ℕ
  neutral_trades : ℕ
  success_rate : ℚ
  total_profit : ℚ
  total_loss : ℚ
  net_profit : ℚ
  avg_profit_per_trade : ℚ
  avg_loss_per_trade : ℚ
  profit_factor : Option ℚ
  confidence : ℚ

/-- Result of `calculate_metrics`: the insufficient-data sentinel dict
or a full metrics record. -/
inductive MetricsResult where
  | insufficient (total_trades min_sample_size : ℕ)
  | metrics (m : MetricsRecord)

/-- Model of `PerformanceTracker.calculate_metrics`
(`performance.py` lines 40-114), as a function of the retrieved
outcome list. -/
def calculateMetrics (cfg : PerformanceConfig) (outcomes : List TradeOutcome) :
    MetricsResult :=
  let total_trades := outcomes.length
  if total_trades < cfg.min_sample_size then
    MetricsResult.insufficient total_trades cfg.min_sample_size
  else
    let successful_trades := (outcomes.filter (fun o => o.outcome = "success")).length
    let failed_trades := (outcomes.filter (fun o => o.outcome = "failure")).length
    let neutral_trades := total_trades - successful_trades - failed_trades
    let success_rate : ℚ :=
      if 0 < total_trades then (successful_trades : ℚ) / (total_trades : ℚ) else 0
    let total_profit := ((outcomes.filter (fun o => 0 < o.profit_loss)).map
      (fun o => o.profit_loss)).sum
    let total_loss := ((outcomes.filter (fun o => o.profit_loss < 0)).map
      (fun o => o.profit_loss)).sum
    let net_profit := total_profit + total_loss
    let avg_profit_per_trade : ℚ :=
      if 0 < successful_trades then total_profit / (successful_trades : ℚ) else 0
    let avg_loss_per_trade : ℚ :=
      if 0 < failed_trades then total_loss / (failed_trades : ℚ) else 0
    let profit_factor : Option ℚ :=
      if total_loss ≠ 0 then some |total_profit / total_loss| else none
    let confidence : ℚ := min 1 ((total_trades : ℚ) / (cfg.metrics_window_size : ℚ))
    MetricsResult.metrics
      { total_trades := total_trades
        successful_trades := successful_trades
        failed_trades := failed_trades
        neutral_trades := neutral_trades
        success_rate := success_rate
        total_profit := total_profit
        total_loss := total_loss
        net_profit := net_profit
        avg_profit_per_trade := avg_profit_per_trade
        avg_loss_per_trade := avg_loss_per_trade
        profit_factor := profit_factor
        confidence := confidence }

/-- The outcome list of the claim's scenario:
success/+50, success/+30, failure/−20, success/+40, failure/−10,
unknown/0. -/
def scenarioOutcomes : List TradeOutcome :=
  [⟨"success", 50⟩, ⟨"success", 30⟩, ⟨"failure", -20⟩,
   ⟨"success", 40⟩, ⟨"failure", -10⟩, ⟨"unknown", 0⟩]

/-- C7: `calculate_metrics` returns the insufficient-data sentinel
(with the observed total and the configured minimum, and no partial
metrics) exactly when fewer than `min_sample_size` outcomes were
retrieved; otherwise it returns full metrics whose success rate,
profit, loss and net-profit fields satisfy the claimed formulas — and
on the claim's six-outcome scenario (with the default configuration,
whose `min_sample_size` is 5 ≤ 6) it yields total 6, successes 3,
failures 2, neutral 1, success rate 1/2, total profit 120, total loss
−30 and net profit 90. -/
theorem claim_C7_calculate_metrics (cfg : PerformanceConfig)
    (outcomes : List TradeOutcome) :
    (outcomes.length < cfg.min_sample_size →
      calculateMetrics cfg outcomes
        = MetricsResult.insufficient outcomes.length cfg.min_sample_size)
    ∧ (cfg.min_sample_size ≤ outcomes.length →
      ∃ m, calculateMetrics cfg outcomes = MetricsResult.metrics m
        ∧ m.total_trades = outcomes.length
        ∧ m.success_rate = (if 0 < outcomes.length then
            ((outcomes.filter (fun o => o.outcome = "success")).length : ℚ)
              / (outcomes.length : ℚ) else 0)
        ∧ m.total_profit = ((outcomes.filter (fun o => 0 < o.profit_loss)).map
            (fun o => o.profit_loss)).sum
        ∧ m.total_loss = ((outcomes.filter (fun o => o.profit_loss < 0)).map
            (fun o => o.profit_loss)).sum
        ∧ m.net_profit = m.total_profit + m.total_loss)
    ∧ (∃ m, calculateMetrics defaultPerformanceConfig scenarioOutcomes
          = MetricsResult.metrics m
        ∧ m.total_trades = 6 ∧ m.successful_trades = 3 ∧ m.failed_trades = 2
        ∧ m.neutral_trades = 1 ∧ m.success_rate = 1/2
        ∧ m.total_profit = 120 ∧ m.total_loss = -30 ∧ m.net_profit = 90) := by
  refine ⟨?_, ?_, ?_⟩
  · intro h
    simp only [calculateMetrics, if_pos h]
  · intro h
    simp only [calculateMetrics, if_neg (not_lt.mpr h)]
    exact ⟨_, rfl, rfl, rfl, rfl, rfl, rfl⟩
  · have hc : calculateMetrics defaultPerformanceConfig scenarioOutcomes
        = MetricsResult.metrics ⟨6, 3, 2, 1, 1/2, 120, -30, 90, 40, -15, some 4, 3/50⟩ := by
      simp [calculateMetrics, scenarioOutcomes, defaultPerformanceConfig, List.filter]
      norm_num
    exact ⟨_, hc, rfl, rfl, rfl, rfl, rfl, rfl, rfl, rfl⟩

/-- Witness for C7: the sentinel branch at an empty outcome list and
the full-metrics branch at the scenario list, under the default
configuration. -/
theorem claim_C7_witness :
    (([] : List TradeOutcome).length < defaultPerformanceConfig.min_sample_size
      ∧ calculateMetrics defaultPerformanceConfig []
          = MetricsResult.insufficient 0 5)
    ∧ (defaultPerformanceConfig.min_sample_size ≤ scenarioOutcomes.length
      ∧ ∃ m, calculateMetrics defaultPerformanceConfig scenarioOutcomes
            = MetricsResult.metrics m
          ∧ m.total_trades = scenarioOutcomes.length
          ∧ m.success_rate = (if 0 < scenarioOutcomes.length then
              ((scenarioOutcomes.filter (fun o => o.outcome = "success")).length : ℚ)
                / (scenarioOutcomes.length : ℚ) else 0)
          ∧ m.total_profit = ((scenarioOutcomes.filter (fun o => 0 < o.profit_loss)).map
              (fun o => o.profit_loss)).sum
          ∧ m.total_loss = ((scenarioOutcomes.filter (fun o => o.profit_loss < 0)).map
              (fun o => o.profit_loss)).sum
          ∧ m.net_profit = m.total_profit + m.total_loss) :=
  ⟨⟨by norm_num [defaultPerformanceConfig],
    (claim_C7_calculate_metrics defaultPerformanceConfig []).1
      (by norm_num [defaultPerformanceConfig])⟩,
   ⟨by norm_num [defaultPerformanceConfig, scenarioOutcomes],
    (claim_C7_calculate_metrics defaultPerformanceConfig scenarioOutcomes).2.1
      (by norm_num [defaultPerformanceConfig, scenarioOutcomes])⟩⟩

/-! ## Action-pattern persistence (`memory_systems/database.py`) and
procedural tier (`memory_systems/procedural.py`)

An `action_patterns` row has integer columns `success_count` /
`failure_count`, a float column `effectiveness` (defaults 0, 0, 0.5)
and a JSON text column `data` (nullable).  The table is an
association list keyed by `(pattern_type, pattern_key)`. -/

/-- Generic association-list lookup (first binding wins). -/
def assocGet {κ α : Type} [DecidableEq κ] (l : List (κ × α)) (k : κ) : Option α :=
  (l.find? (fun p => p.1 = k)).map Prod.snd

/-- Generic in-place association-list update (appends when absent),
modelling an ORM mutating a queried row. -/
def assocSet {κ α : Type} [DecidableEq κ] : List (κ × α) → κ → α → List (κ × α)
  | [], k, v => [(k, v)]
  | p :: rest, k, v => if p.1 = k then (k, v) :: rest else p :: assocSet rest k v

theorem assocGet_assocSet_self {κ α : Type} [DecidableEq κ]
    (l : List (κ × α)) (k : κ) (v : α) : assocGet (assocSet l k v) k = some v := by
  induction l with
  | nil => simp [assocGet, assocSet]
  | cons p rest ih =>
      by_cases h : p.1 = k
      · simp [assocSet, h, assocGet]
      · simp only [assocSet, if_neg h]
        simp only [assocGet] at ih ⊢
        rw [List.find?_cons_of_neg _ (by simpa using h)]
        exact ih

theorem assocGet_cons_of_neg {κ α : Type} [DecidableEq κ]
    (p : κ × α) (rest : List (κ × α)) (k : κ) (hp : ¬p.1 = k) :
    assocGet (p :: rest) k = assocGet rest k := by
  simp only [assocGet]
  rw [List.find?_cons_of_neg _ (by simpa using hp)]

theorem assocGet_append_right {κ α : Type} [DecidableEq κ]
    (l : List (κ × α)) (k : κ) (v : α) (h : assocGet l k = none) :
    assocGet (l ++ [(k, v)]) k = some v := by
  induction l with
  | nil => simp [assocGet]
  | cons p rest ih =>
      by_cases hp : p.1 = k
      · exfalso
        have hsome : assocGet (p :: rest) k = some p.2 := by
          simp only [assocGet]
          rw [List.find?_cons_of_pos _ (by simpa using hp)]
          rfl
        rw [hsome] at h
        cases h
      · have h' : assocGet rest k = none := by
          rwa [assocGet_cons_of_neg p rest k hp] at h
        rw [List.cons_append, assocGet_cons_of_neg p (rest ++ [(k, v)]) k hp]
        exact ih h'

/-- Python truthiness of a JSON value, for `json.dumps(data) if data
else None`. -/
def jTruthy : JVal → Bool
  | JVal.null => false
  | JVal.bool b => b
  | JVal.intg n => decide (n ≠ 0)
  | JVal.num q => decide (q ≠ 0)
  | JVal.str s => !s.isEmpty
  | JVal.arr l => !l.isEmpty
  | JVal.obj kvs => !kvs.isEmpty

/-- Python `d.get(k)` on a JSON object (None when not an object). -/
def jobjGet : JVal → String → Option JVal
  | JVal.obj kvs, k => dictGet kvs k
  | _, _ => none

/-- Python `dict.update`: entries of `new` override or extend `old`. -/
def jMergeKvs (old new : List (String × JVal)) : List (String × JVal) :=
  new.foldl (fun acc p => dictSet acc p.1 p.2) old

/-- Database row of the `action_patterns` table: counter and float
columns with their SQLAlchemy defaults, plus the nullable JSON text
column. -/
structure PatternRow where
  success_count : ℕ
  failure_count : ℕ
  effectiveness : ℚ
  dataJson : Option JVal

/-- Dict view produced by `ActionPattern.to_dict` (computation fields
only; id and timestamps are generated externally): a missing or
unparsable `data` column becomes an empty dict. -/
structure PatternDict where
  success_count : ℕ
  failure_count : ℕ
  effectiveness : ℚ
  data : JVal

/-- Model of `ActionPattern.to_dict` (`database.py` lines 111-132). -/
def PatternRow.toDict (r : PatternRow) : PatternDict :=
  { success_count := r.success_count
    failure_count := r.failure_count
    effectiveness := r.effectiveness
    data := r.dataJson.getD (JVal.obj []) }

/-- The `action_patterns` table, keyed by `(pattern_type, pattern_key)`. -/
abbrev PatternTable : Type := List ((String × String) × PatternRow)

/-- Row lookup by type and key. -/
def patGet (tbl : PatternTable) (pattern_type pattern_key : String) :
    Option PatternRow :=
  assocGet tbl (pattern_type, pattern_key)

/-- Model of `DatabaseManager.get_action_pattern`
(`database.py` lines 340-358). -/
def dbGetActionPattern (tbl : PatternTable) (pattern_type pattern_key : String) :
    Option PatternDict :=
  (patGet tbl pattern_type pattern_key).map PatternRow.toDict

/-- Model of `DatabaseManager.create_action_pattern`
(`database.py` lines 360-386).  The `data` argument is stored in the
JSON text column only; the `success_count`, `failure_count` and
`effectiveness` columns keep their declared defaults 0, 0 and 0.5. -/
def dbCreateActionPattern (tbl : PatternTable)
    (pattern_type pattern_key : String) (data : JVal) :
    PatternDict × PatternTable :=
  let row : PatternRow :=
    { success_count := 0
      failure_count := 0
      effectiveness := 1/2
      dataJson := if jTruthy data then some data else none }
  (row.toDict, tbl ++ [((pattern_type, pattern_key), row)])

/-- The shapes of the `data` dict passed to
`DatabaseManager.update_action_pattern`: optional column values plus
an optional JSON-merge payload for the `data` column. -/
structure PatternUpdate where
  success_count : Option ℕ := none
  failure_count : Option ℕ := none
  effectiveness : Option ℚ := none
  data : Option JVal := none

/-- Model of `DatabaseManager.update_action_pattern`
(`database.py` lines 388-427): set the columns named in the update,
merge the `data` payload into the stored JSON, return `None` when the
row does not exist. -/
def dbUpdateActionPattern (tbl : PatternTable)
    (pattern_type pattern_key : String) (upd : PatternUpdate) :
    Option PatternDict × PatternTable :=
  match patGet tbl pattern_type pattern_key with
  | none => (none, tbl)
  | some row =>
    let row₁ : PatternRow :=
      { success_count := upd.success_count.getD row.success_count
        failure_count := upd.failure_count.getD row.failure_count
        effectiveness := upd.effectiveness.getD row.effectiveness
        dataJson := row.dataJson }
    let row₂ : PatternRow :=
      match upd.data with
      | none => row₁
      | some (JVal.obj newKvs) =>
          let oldKvs := match row.dataJson with
            | some (JVal.obj kvs) => kvs
            | _ => []
          { row₁ with dataJson := some (JVal.obj (jMergeKvs oldKvs newKvs)) }
      | some _ => row₁
    (some row₂.toDict, assocSet tbl (pattern_type, pattern_key) row₂)

/-- Model of `ProceduralMemory.store_pattern`
(`procedural.py` lines 46-114), threading the pattern table and the
tier's `pattern_cache`; returns the dict the method returns. -/
def storePattern (tbl : PatternTable) (cache : List (String × PatternDict))
    (pattern_type : String) (pattern_data : JVal) (success : Bool) :
    PatternDict × PatternTable × List (String × PatternDict) :=
  let pattern_key := generatePatternKey pattern_data
  match dbGetActionPattern tbl pattern_type pattern_key with
  | some existing =>
      let sc := existing.success_count + (if success then 1 else 0)
      let fc := existing.failure_count + (if success then 0 else 1)
      let total := sc + fc
      let eff : Option ℚ := if 0 < total then some ((sc : ℚ) / (total : ℚ)) else none
      let pattern_data_dict := (jobjGet existing.data "pattern_data").getD (JVal.obj [])
      let upd : PatternUpdate :=
        { success_count := some sc
          failure_count := some fc
          effectiveness := eff
          data := some (JVal.obj [("pattern_data", pattern_data_dict)]) }
      match dbUpdateActionPattern tbl pattern_type pattern_key upd with
      | (some updated, tbl') =>
          (updated, tbl',
            dictSet cache (pattern_type ++ ":" ++ pattern_key) updated)
      | (none, tbl') => (existing, tbl', cache)
  | none =>
      let data := JVal.obj
        [("success_count", JVal.intg (if success then 1 else 0)),
         ("failure_count", JVal.intg (if success then 0 else 1)),
         ("effectiveness", JVal.num (if success then 1 else 0)),
         ("data", JVal.obj [("pattern_data", pattern_data)])]
      let (created, tbl') := dbCreateActionPattern tbl pattern_type pattern_key data
      (created, tbl',
        dictSet cache (pattern_type ++ ":" ++ pattern_key) created)

/-- Tunables copied from `FeedbackConfig` (`learning_systems/config.py`). -/
structure FeedbackConfig where
  positive_threshold : ℚ
  negative_threshold : ℚ
  feedback_weight : ℚ
  outcome_weight : ℚ
  feedback_decay : ℚ

/-- Default values of `FeedbackConfig`. -/
def defaultFeedbackConfig : FeedbackConfig :=
  { positive_threshold := 7/10
    negative_threshold := 3/10
    feedback_weight := 4/5
    outcome_weight := 3/5
    feedback_decay := 9/10 }

/-- Model of `FeedbackProcessor._update_strategy_model`
(`feedback.py` lines 323-379): a decayed, clamped effectiveness update
plus threshold-gated count increments on an existing pattern row.  The
optional arguments mirror `data.get("strategy_id"/"pattern_type"/
"pattern_key")` and the early-return guards. -/
def updateStrategyModel (cfg : FeedbackConfig) (tbl : PatternTable)
    (strategy_id pattern_type pattern_key : Option String) (value : ℚ) :
    PatternTable :=
  if strategy_id.isNone ∧ pattern_type.isNone then tbl
  else if strategy_id.isNone
      ∧ ¬(pattern_type.isSome ∧ pattern_key.isSome) then tbl
  else
    match pattern_type, pattern_key with
    | some pt, some pk =>
        match dbGetActionPattern tbl pt pk with
        | none => tbl
        | some action_pattern =>
            let effectiveness := action_pattern.effectiveness
            let new_effectiveness := max 0 (min 1
              (effectiveness * cfg.feedback_decay + value * (1 - cfg.feedback_decay)))
            let success_count :=
              if value > cfg.positive_threshold then action_pattern.success_count + 1
              else action_pattern.success_count
            let failure_count :=
              if ¬(value > cfg.positive_threshold) ∧ value < cfg.negative_threshold
              then action_pattern.failure_count + 1
              else action_pattern.failure_count
            (dbUpdateActionPattern tbl pt pk
              { effectiveness := some new_effectiveness
                success_count := some success_count
                failure_count := some failure_count
                data := none }).2
    | _, _ => tbl

theorem storePattern_create (tbl : PatternTable)
    (cache : List (String × PatternDict)) (pt : String) (payload : JVal) (b : Bool)
    (hget : patGet tbl pt (generatePatternKey payload) = none) :
    patGet (storePattern tbl cache pt payload b).2.1 pt (generatePatternKey payload)
      = some ⟨0, 0, 1/2,
          some (JVal.obj
            [("success_count", JVal.intg (if b then 1 else 0)),
             ("failure_count", JVal.intg (if b then 0 else 1)),
             ("effectiveness", JVal.num (if b then 1 else 0)),
             ("data", JVal.obj [("pattern_data", payload)])])⟩ := by
  have hdb : dbGetActionPattern tbl pt (generatePatternKey payload) = none := by
    simp [dbGetActionPattern, hget]
  simp only [storePattern, hdb, dbCreateActionPattern, jTruthy, List.isEmpty_cons,
    Bool.not_false, if_pos]
  exact assocGet_append_right _ _ _ hget

theorem storePattern_update (tbl : PatternTable)
    (cache : List (String × PatternDict)) (pt : String) (payload : JVal) (b : Bool)
    (r : PatternRow)
    (hget : patGet tbl pt (generatePatternKey payload) = some r) :
    ∃ r', patGet (storePattern tbl cache pt payload b).2.1 pt (generatePatternKey payload)
        = some r'
      ∧ r'.success_count = r.success_count + (if b then 1 else 0)
      ∧ r'.failure_count = r.failure_count + (if b then 0 else 1)
      ∧ r'.effectiveness
          = (r'.success_count : ℚ) / ((r'.success_count : ℚ) + (r'.failure_count : ℚ)) := by
  have hdb : dbGetActionPattern tbl pt (generatePatternKey payload)
      = some r.toDict := by
    simp [dbGetActionPattern, hget]
  have htot : 0 < (r.success_count + (if b then 1 else 0))
      + (r.failure_count + (if b then 0 else 1)) := by
    cases b <;> simp
  simp only [storePattern, hdb, dbUpdateActionPattern, hget, PatternRow.toDict,
    if_pos htot]
  refine ⟨_, assocGet_assocSet_self _ _ _, ?_, ?_, ?_⟩
  · simp [Option.getD]
  · simp [Option.getD]
  · simp only [Option.getD_some]
    push_cast
    ring_nf

/-- Payload used by the C2 counterexample run. -/
def c2Payload : JVal := JVal.obj [("tool", JVal.str "x")]

theorem updateStrategyModel_existing (cfg : FeedbackConfig) (tbl : PatternTable)
    (pt pk : String) (value : ℚ) (r : PatternRow)
    (hget : patGet tbl pt pk = some r) :
    updateStrategyModel cfg tbl none (some pt) (some pk) value
      = assocSet tbl (pt, pk)
        ⟨(if value > cfg.positive_threshold then r.success_count + 1
            else r.success_count),
         (if ¬(value > cfg.positive_threshold) ∧ value < cfg.negative_threshold
            then r.failure_count + 1 else r.failure_count),
         max 0 (min 1
           (r.effectiveness * cfg.feedback_decay + value * (1 - cfg.feedback_decay))),
         r.dataJson⟩ := by
  simp [updateStrategyModel, dbGetActionPattern, hget, dbUpdateActionPattern,
    PatternRow.toDict]

/-- C2 counterexample: on the single key of `c2Payload`, the
interleaving (store success, store success, strategy feedback 0) —
the first two via `ProceduralMemory.store_pattern`, the third via
`FeedbackProcessor._update_strategy_model` with the default feedback
configuration — leaves a stored pattern with `success_count = 1`,
`failure_count = 1` and `effectiveness = 9/10 ≠ 1/2`, refuting the
claimed exact-ratio invariant. -/
theorem claim_C2_counterexample :
    ∃ r, patGet (updateStrategyModel defaultFeedbackConfig
        (storePattern (storePattern [] [] "tool_usage" c2Payload true).2.1
          (storePattern [] [] "tool_usage" c2Payload true).2.2
          "tool_usage" c2Payload true).2.1
        none (some "tool_usage") (some (generatePatternKey c2Payload)) 0)
      "tool_usage" (generatePatternKey c2Payload) = some r
    ∧ r.success_count = 1 ∧ r.failure_count = 1 ∧ r.effectiveness = 9/10
    ∧ ¬ r.effectiveness
        = (r.success_count : ℚ) / ((r.success_count : ℚ) + (r.failure_count : ℚ)) := by
  have h1 := storePattern_create [] [] "tool_usage" c2Payload true rfl
  obtain ⟨r₂, hget2, hsc2, hfc2, heff2⟩ :=
    storePattern_update (storePattern [] [] "tool_usage" c2Payload true).2.1
      (storePattern [] [] "tool_usage" c2Payload true).2.2
      "tool_usage" c2Payload true _ h1
  simp only [if_pos trivial] at hsc2 hfc2
  have hsc2' : r₂.success_count = 1 := by simpa using hsc2
  have hfc2' : r₂.failure_count = 0 := by simpa using hfc2
  have heff2' : r₂.effectiveness = 1 := by
    rw [heff2, hsc2', hfc2']
    norm_num
  have h3 := updateStrategyModel_existing defaultFeedbackConfig _
    "tool_usage" (generatePatternKey c2Payload) 0 r₂ hget2
  rw [h3]
  refine ⟨_, assocGet_assocSet_self _ _ _, ?_, ?_, ?_, ?_⟩
  · simp only [defaultFeedbackConfig]
    rw [if_neg (by norm_num)]
    exact hsc2'
  · simp only [defaultFeedbackConfig]
    rw [if_pos (by norm_num)]
    rw [hfc2']
  · simp only [defaultFeedbackConfig, heff2']
    norm_num
  · simp only [defaultFeedbackConfig]
    rw [if_neg (by norm_num), if_pos (by norm_num), hsc2', hfc2', heff2']
    norm_num

/-- One `store_pattern` call as a step on (pattern table, tier cache). -/
def storeStep (pt : String) (payload : JVal)
    (s : PatternTable × List (String × PatternDict)) (b : Bool) :
    PatternTable × List (String × PatternDict) :=
  (storePattern s.1 s.2 pt payload b).2

/-- A sequence of `store_pattern` observations on one pattern key. -/
def runStore (pt : String) (payload : JVal)
    (st : PatternTable × List (String × PatternDict)) (obs : List Bool) :
    PatternTable × List (String × PatternDict) :=
  obs.foldl (storeStep pt payload) st

theorem runStore_counts (pt : String) (payload : JVal) :
    ∀ (obs : List Bool) (st : PatternTable × List (String × PatternDict))
      (r : PatternRow),
      patGet st.1 pt (generatePatternKey payload) = some r →
      ∃ r', patGet (runStore pt payload st obs).1 pt (generatePatternKey payload)
          = some r'
        ∧ r'.success_count + r'.failure_count
            = r.success_count + r.failure_count + obs.length := by
  intro obs
  induction obs with
  | nil => exact fun st r h => ⟨r, h, by simp⟩
  | cons b os ih =>
      intro st r h
      obtain ⟨r₁, h₁, hsc₁, hfc₁, _⟩ :=
        storePattern_update st.1 st.2 pt payload b r h
      obtain ⟨r', h', htot⟩ := ih (storeStep pt payload st b) r₁ h₁
      refine ⟨r', h', ?_⟩
      rw [htot, hsc₁, hfc₁]
      cases b <;> simp <;> omega

/-- C2 amended (store-only runs): starting from an empty table, after a
first observation and at least one further observation through
`store_pattern`, the stored row satisfies
`effectiveness = success_count/(success_count+failure_count)` exactly —
but the counters cover only the observations after the first, because
`create_action_pattern` leaves the counter columns at their defaults
(0, 0, 0.5), writing the seeded counts only into the JSON payload. -/
theorem claim_C2_amended_store_only_ratio (pt : String) (payload : JVal)
    (b₀ blast : Bool) (obs : List Bool) :
    ∃ r, patGet (runStore pt payload ([], []) ((b₀ :: obs) ++ [blast])).1
        pt (generatePatternKey payload) = some r
      ∧ r.effectiveness
          = (r.success_count : ℚ) / ((r.success_count : ℚ) + (r.failure_count : ℚ))
      ∧ r.success_count + r.failure_count = obs.length + 1 := by
  have h₀ := storePattern_create [] [] pt payload b₀ rfl
  have hrun : runStore pt payload ([], []) ((b₀ :: obs) ++ [blast])
      = storeStep pt payload
          (runStore pt payload (storeStep pt payload ([], []) b₀) obs) blast := by
    simp only [runStore, List.cons_append, List.foldl_cons, List.foldl_append,
      List.foldl_cons, List.foldl_nil]
  obtain ⟨rmid, hmid, htot⟩ :=
    runStore_counts pt payload obs (storeStep pt payload ([], []) b₀) _ h₀
  obtain ⟨r', h', hsc', hfc', heff'⟩ :=
    storePattern_update _ _ pt payload blast rmid hmid
  refine ⟨r', by rw [hrun]; exact h', heff', ?_⟩
  rw [hsc', hfc']
  simp only at htot
  cases blast <;> simp <;> omega

/-! ## Pattern-engine persistence (`learning_systems/pattern.py`) -/

/-- Modelled from the spec: `DatabaseManager.store_pattern` is called
by `PatternRecognition._store_pattern` but is not defined anywhere in
the repository (only tests mock it); the spec's external-interface
section describes detected-pattern persistence as an append-only
store, modelled as appending the `(pattern_type, pattern_key,
pattern)` triple to a list. -/
def dbStorePattern (stored : List (String × String × JVal))
    (pattern_type pattern_key : String) (pattern : JVal) :
    List (String × String × JVal) :=
  stored ++ [(pattern_type, pattern_key, pattern)]

/-- State of a `PatternRecognition` instance relevant to persistence:
its deduplication cache and the external store's contents. -/
structure PRState where
  pattern_cache : List (String × JVal)
  stored : List (String × String × JVal)

/-- The `pattern.get("type", "unknown")` read (the claims only involve
string-valued type tags). -/
def prGetTypeString (pattern : JVal) : String :=
  match jobjGet pattern "type" with
  | some (JVal.str s) => s
  | _ => "unknown"

/-- Model of `PatternRecognition._store_pattern`
(`pattern.py` lines 528-553): hash the entire pattern record (id and
timestamp included), skip when the `type:hash` key is cached,
otherwise persist and cache. -/
def prStorePattern (st : PRState) (pattern : JVal) : PRState :=
  let pattern_type := prGetTypeString pattern
  let pattern_hash := md5Hex (dumps pattern)
  let pattern_key := pattern_type ++ ":" ++ pattern_hash
  if (dictGet st.pattern_cache pattern_key).isSome then st
  else
    { pattern_cache := dictSet st.pattern_cache pattern_key pattern
      stored := dbStorePattern st.stored pattern_type pattern_key pattern }

/-- A detected `high_success_symbol` pattern as built by
`_detect_trade_patterns`, with its per-detection uuid and timestamp. -/
def c3Pattern1 : JVal := JVal.obj
  [("id", JVal.str "u1"), ("type", JVal.str "high_success_symbol"),
   ("symbol", JVal.str "AAPL"), ("sample_size", JVal.intg 5),
   ("detected_at", JVal.str "T1")]

/-- The same pattern content re-detected in a later mining pass: only
the freshly generated `id` and `detected_at` differ. -/
def c3Pattern2 : JVal := JVal.obj
  [("id", JVal.str "u2"), ("type", JVal.str "high_success_symbol"),
   ("symbol", JVal.str "AAPL"), ("sample_size", JVal.intg 5),
   ("detected_at", JVal.str "T2")]

set_option maxRecDepth 4000 in
/-- C3: evaluating `_store_pattern` at the failing input — the same
pattern content detected twice, each detection carrying its own uuid
and timestamp — persists two copies, because the content hash covers
the whole record including `id` and `detected_at`; only a
byte-identical record (same uuid, same timestamp) is deduplicated. -/
theorem claim_C3_redetection_repersisted :
    ((prStorePattern (prStorePattern ⟨[], []⟩ c3Pattern1) c3Pattern2).stored).length = 2
    ∧ ((prStorePattern (prStorePattern ⟨[], []⟩ c3Pattern1) c3Pattern1).stored).length = 1 := by
  decide

/-! ## Semantic-memory rows and the feedback engine
(`memory_systems/database.py`, `learning_systems/feedback.py`)

The JSON `data` columns of `trader_profiles` and `market_knowledge`
rows are modelled as records of optional fields — one field per JSON
key that the embedded operations read or write, plus `extras` for the
blobs written only at creation and never read back.  A missing key is
`none`; `dict.update` merges are field-wise. -/

/-- Entry appended to a per-trader or per-market `feedback_history`
list by `_update_signal_model` / `_update_trader_model`. -/
structure FbEntry where
  value : ℚ
  timestamp : String
  source : String

/-- Python `list[-100:]` trimming applied when a feedback-history list
exceeds 100 entries. -/
def cap100 {α : Type} (l : List α) : List α :=
  if l.length > 100 then l.drop (l.length - 100) else l

theorem cap100_length {α : Type} (l : List α) : (cap100 l).length ≤ 100 := by
  by_cases h : l.length > 100
  · simp [cap100, if_pos h]
    omega
  · simp [cap100, if_neg h]
    omega

/-- Parsed JSON `data` column of a `market_knowledge` row.  `name` and
`sector` are the data-dict keys of those names (read only by
`create_market_knowledge` to seed the columns); `extras` carries blobs
written at creation and never read back. -/
structure MarketData where
  reliability : Option ℚ := none
  feedback_history : Option (List FbEntry) := none
  trade_signals : Option (List JVal) := none
  name : Option String := none
  sector : Option String := none
  extras : Option JVal := none

/-- Parsed JSON `data` column of a `trader_profiles` row. -/
structure TraderData where
  reliability : Option ℚ := none
  feedback_history : Option (List FbEntry) := none
  trade_history : Option (List JVal) := none
  extras : Option JVal := none

/-- Python `dict.update` on a market-data dict: keys present in the
patch override, absent keys survive. -/
def MarketData.merge (old patch : MarketData) : MarketData :=
  { reliability := patch.reliability <|> old.reliability
    feedback_history := patch.feedback_history <|> old.feedback_history
    trade_signals := patch.trade_signals <|> old.trade_signals
    name := patch.name <|> old.name
    sector := patch.sector <|> old.sector
    extras := patch.extras <|> old.extras }

/-- Python `dict.update` on a trader-data dict. -/
def TraderData.merge (old patch : TraderData) : TraderData :=
  { reliability := patch.reliability <|> old.reliability
    feedback_history := patch.feedback_history <|> old.feedback_history
    trade_history := patch.trade_history <|> old.trade_history
    extras := patch.extras <|> old.extras }

/-- Row of the `market_knowledge` table (columns read by the embedded
operations; a NULL JSON column and an empty dict are both the
all-`none` record, indistinguishable to every modelled read). -/
structure MarketRow where
  name : Option String := none
  sector : Option String := none
  data : MarketData := {}

/-- Row of the `trader_profiles` table, with the SQLAlchemy column
defaults 0, 0 and 0.5. -/
structure TraderRow where
  username : Option String := none
  successful_trades : ℕ := 0
  failed_trades : ℕ := 0
  reliability : ℚ := 1/2
  data : TraderData := {}

/-- The `market_knowledge` table keyed by symbol. -/
abbrev MarketTable : Type := List (String × MarketRow)

/-- The `trader_profiles` table keyed by trader id. -/
abbrev TraderTable : Type := List (String × TraderRow)

/-- Model of `DatabaseManager.get_market_knowledge`
(`database.py` lines 263-278). -/
def dbGetMarketKnowledge (markets : MarketTable) (symbol : String) :
    Option MarketRow :=
  assocGet markets symbol

/-- Model of `DatabaseManager.create_market_knowledge`
(`database.py` lines 280-304); the `name`/`sector` keys of the data
argument feed those columns (none at the embedded call sites). -/
def dbCreateMarketKnowledge (markets : MarketTable) (symbol : String)
    (data : MarketData) : MarketRow × MarketTable :=
  let row : MarketRow := { name := data.name, sector := data.sector, data := data }
  (row, markets ++ [(symbol, row)])

/-- Model of `DatabaseManager.update_market_knowledge`
(`database.py` lines 306-338), restricted to the `data` key — the only
one the embedded call sites pass. -/
def dbUpdateMarketKnowledge (markets : MarketTable) (symbol : String)
    (dataPatch : Option MarketData) : Option MarketRow × MarketTable :=
  match assocGet markets symbol with
  | none => (none, markets)
  | some row =>
      let row' : MarketRow :=
        match dataPatch with
        | none => row
        | some patch => { row with data := row.data.merge patch }
      (some row', assocSet markets symbol row')

/-- Column/data updates accepted by `update_trader_profile`. -/
structure TraderUpdates where
  username : Option String := none
  successful_trades : Option ℕ := none
  failed_trades : Option ℕ := none
  reliability : Option ℚ := none
  data : Option TraderData := none

/-- Model of `DatabaseManager.get_trader_profile`
(`database.py` lines 183-198). -/
def dbGetTraderProfile (traders : TraderTable) (trader_id : String) :
    Option TraderRow :=
  assocGet traders trader_id

/-- Model of `DatabaseManager.create_trader_profile`
(`database.py` lines 200-223): the data dict lands in the JSON column;
the counter and reliability columns keep their defaults. -/
def dbCreateTraderProfile (traders : TraderTable) (trader_id : String)
    (data : TraderData) : TraderRow × TraderTable :=
  let row : TraderRow := { data := data }
  (row, traders ++ [(trader_id, row)])

/-- Model of `DatabaseManager.update_trader_profile`
(`database.py` lines 225-261). -/
def dbUpdateTraderProfile (traders : TraderTable) (trader_id : String)
    (upd : TraderUpdates) : Option TraderRow × TraderTable :=
  match assocGet traders trader_id with
  | none => (none, traders)
  | some row =>
      let row' : TraderRow :=
        { username := if upd.username.isSome then upd.username else row.username
          successful_trades := upd.successful_trades.getD row.successful_trades
          failed_trades := upd.failed_trades.getD row.failed_trades
          reliability := upd.reliability.getD row.reliability
          data := match upd.data with
            | none => row.data
            | some patch => row.data.merge patch }
      (some row', assocSet traders trader_id row')

/-- Model of `FeedbackProcessor._update_signal_model`
(`feedback.py` lines 213-266): get-or-create the market row, apply the
decayed clamped reliability update, append to (and cap) the
feedback-history list, write the mutated data dict back.  Persistence
is modelled as always succeeding; on a collaborator failure the method
catches the exception and leaves state as it was. -/
def updateSignalModel (cfg : FeedbackConfig) (markets : MarketTable)
    (symbol : Option String) (source : Option String) (value : ℚ)
    (now : String) : MarketTable :=
  match symbol with
  | none => markets
  | some symbol =>
    let got := match dbGetMarketKnowledge markets symbol with
      | some row => (row, markets)
      | none => dbCreateMarketKnowledge markets symbol {}
    let market_knowledge := got.1
    let markets₁ := got.2
    let market_data := market_knowledge.data
    let reliability := market_data.reliability.getD (1/2)
    let new_reliability := max 0 (min 1
      (reliability * cfg.feedback_decay + value * (1 - cfg.feedback_decay)))
    let fh := market_data.feedback_history.getD []
    let fh₁ := fh ++ [⟨value, now, source.getD "unknown"⟩]
    let fh₂ := cap100 fh₁
    let market_data₁ : MarketData :=
      { market_data with
        reliability := some new_reliability
        feedback_history := some fh₂ }
    (dbUpdateMarketKnowledge markets₁ symbol (some market_data₁)).2

/-- Model of `FeedbackProcessor._update_trader_model`
(`feedback.py` lines 268-321), symmetric to the signal model. -/
def updateTraderModel (cfg : FeedbackConfig) (traders : TraderTable)
    (trader_id : Option String) (source : Option String) (value : ℚ)
    (now : String) : TraderTable :=
  match trader_id with
  | none => traders
  | some trader_id =>
    let got := match dbGetTraderProfile traders trader_id with
      | some row => (row, traders)
      | none => dbCreateTraderProfile traders trader_id {}
    let trader_profile := got.1
    let traders₁ := got.2
    let profile_data := trader_profile.data
    let reliability := profile_data.reliability.getD (1/2)
    let new_reliability := max 0 (min 1
      (reliability * cfg.feedback_decay + value * (1 - cfg.feedback_decay)))
    let fh := profile_data.feedback_history.getD []
    let fh₁ := fh ++ [⟨value, now, source.getD "unknown"⟩]
    let fh₂ := cap100 fh₁
    let profile_data₁ : TraderData :=
      { profile_data with
        reliability := some new_reliability
        feedback_history := some fh₂ }
    (dbUpdateTraderProfile traders₁ trader_id { data := some profile_data₁ }).2

/-- The `"value"` field of a user-feedback dict: a keyword string or a
numeric value. -/
inductive FeedbackValue where
  | s (v : String) : FeedbackValue
  | q (v : ℚ) : FeedbackValue

/-- Normalization of the feedback value to `[-1, 1]`
(`feedback.py` lines 55-65). -/
def normalizeFeedbackValue : FeedbackValue → ℚ
  | FeedbackValue.s v =>
      if v.toLower = "positive" ∨ v.toLower = "good" ∨ v.toLower = "yes" then 1
      else if v.toLower = "negative" ∨ v.toLower = "bad" ∨ v.toLower = "no" then -1
      else 0
  | FeedbackValue.q v => max (-1) (min 1 v)

/-- Model of `FeedbackProcessor._calculate_reward`
(`feedback.py` lines 156-175). -/
def calculateReward (outcome : String) (profit_loss : ℚ) : ℚ :=
  if outcome.toLower = "success" then min 1 (max (1/10) (profit_loss / 100))
  else if outcome.toLower = "failure" then max (-1) (min (-(1/10)) (profit_loss / 100))
  else 0

/-- Fields of a user-feedback dict read by `process_user_feedback` and
its dispatch targets. -/
structure FeedbackData where
  ftype : Option String := none
  value : Option FeedbackValue := none
  text : Option String := none
  symbol : Option String := none
  trader_id : Option String := none
  source : Option String := none
  strategy_id : Option String := none
  pattern_type : Option String := none
  pattern_key : Option String := none

/-- Fields of a trade-outcome dict read by `process_trade_outcome`. -/
structure TradeData where
  trade_id : Option String := none
  symbol : Option String := none
  action : Option String := none
  outcome : Option String := none
  profit_loss : Option ℚ := none
  trader_id : Option String := none

/-- Mutable state touched by the feedback engine: its own in-memory
history (records kept as JSON objects) and the three persisted
tables. -/
structure FeedbackState where
  feedback_history : List JVal
  markets : MarketTable
  traders : TraderTable
  patterns : PatternTable

/-- Engine state after `FeedbackProcessor.__init__` over empty tables. -/
def initFeedbackState : FeedbackState :=
  { feedback_history := [], markets := [], traders := [], patterns := [] }

/-- Model of `FeedbackProcessor.process_user_feedback`
(`feedback.py` lines 40-96).  `fid`/`now` stand for the generated uuid
and timestamp; `_store_feedback` (an external append-only store whose
failures are caught) has no effect on the modelled state. -/
def processUserFeedback (cfg : FeedbackConfig) (st : FeedbackState)
    (fdata : FeedbackData) (fid now : String) : (String × String × ℚ) × FeedbackState :=
  let feedback_type := fdata.ftype.getD "general"
  let normalized_value := normalizeFeedbackValue (fdata.value.getD (FeedbackValue.q 0))
  let feedback_record := JVal.obj
    [("id", JVal.str fid), ("type", JVal.str feedback_type),
     ("value", JVal.num normalized_value), ("text", JVal.str (fdata.text.getD "")),
     ("timestamp", JVal.str now), ("source", JVal.str "user")]
  let st₁ := { st with feedback_history := st.feedback_history ++ [feedback_record] }
  let st₂ :=
    if feedback_type = "trade_signal" then
      { st₁ with markets := (updateSignalModel cfg st₁.markets fdata.symbol
          fdata.source normalized_value now) }
    else if feedback_type = "trader_reliability" then
      { st₁ with traders := (updateTraderModel cfg st₁.traders fdata.trader_id
          fdata.source normalized_value now) }
    else if feedback_type = "strategy" then
      { st₁ with patterns := (updateStrategyModel cfg st₁.patterns fdata.strategy_id
          fdata.pattern_type fdata.pattern_key normalized_value) }
    else st₁
  ((fid, feedback_type, normalized_value), st₂)

/-- Model of `FeedbackProcessor.process_trade_outcome`
(`feedback.py` lines 98-154).  The signal model always runs (the
constructed dict always carries a `symbol` key, defaulting to the
empty string); the trader model runs when a trader id is present. -/
def processTradeOutcome (cfg : FeedbackConfig) (st : FeedbackState)
    (tdata : TradeData) (oid now : String) : (String × ℚ) × FeedbackState :=
  let symbol := tdata.symbol.getD ""
  let outcome := tdata.outcome.getD "unknown"
  let profit_loss := tdata.profit_loss.getD 0
  let reward := calculateReward outcome profit_loss
  let outcome_record := JVal.obj
    [("id", JVal.str oid), ("symbol", JVal.str symbol),
     ("action", JVal.str (tdata.action.getD "")), ("outcome", JVal.str outcome),
     ("profit_loss", JVal.num profit_loss), ("reward", JVal.num reward),
     ("timestamp", JVal.str now), ("source", JVal.str "system")]
  let st₁ := { st with feedback_history := st.feedback_history ++ [outcome_record] }
  let st₂ := { st₁ with markets :=
    (updateSignalModel cfg st₁.markets (some symbol) none reward now) }
  let st₃ :=
    match tdata.trader_id with
    | some tid =>
        { st₂ with traders := (updateTraderModel cfg st₂.traders (some tid) none reward now) }
    | none => st₂
  ((oid, reward), st₃)

theorem processUserFeedback_history (cfg : FeedbackConfig) (st : FeedbackState)
    (fdata : FeedbackData) (fid now : String) :
    ∃ rec, (processUserFeedback cfg st fdata fid now).2.feedback_history
      = st.feedback_history ++ [rec] := by
  simp only [processUserFeedback]
  split <;> (try split) <;> (try split)
  all_goals exact ⟨_, rfl⟩

/-- How many user-feedback calls of an undispatched type change the
feedback history: one appended record per call. -/
def iterUserFeedback (cfg : FeedbackConfig) : ℕ → FeedbackState → FeedbackState
  | 0, st => st
  | n + 1, st =>
      iterUserFeedback cfg n
        (processUserFeedback cfg st { ftype := some "general" } "id" "t").2

theorem iterUserFeedback_length (cfg : FeedbackConfig) :
    ∀ (n : ℕ) (st : FeedbackState),
      (iterUserFeedback cfg n st).feedback_history.length
        = st.feedback_history.length + n := by
  intro n
  induction n with
  | zero => intro st; simp [iterUserFeedback]
  | succ m ih =>
      intro st
      obtain ⟨rec, hrec⟩ := processUserFeedback_history cfg st
        { ftype := some "general" } "id" "t"
      simp only [iterUserFeedback, ih, hrec, List.length_append]
      simp
      omega

/-- C4 counterexample: after 101 completed `process_user_feedback`
calls the engine's own in-memory feedback history holds 101 > 100
entries — no cap is ever applied to it. -/
theorem claim_C4_counterexample :
    (iterUserFeedback defaultFeedbackConfig 101 initFeedbackState).feedback_history.length
      = 101 ∧ 100 < 101 :=
  ⟨by rw [iterUserFeedback_length]; rfl, by omega⟩

theorem updateSignalModel_cap (cfg : FeedbackConfig) (markets : MarketTable)
    (symbol : String) (source : Option String) (value : ℚ) (now : String) :
    ∃ row, assocGet (updateSignalModel cfg markets (some symbol) source value now)
        symbol = some row
      ∧ ∃ old entry, row.data.feedback_history = some (cap100 (old ++ [entry])) := by
  rcases hget : dbGetMarketKnowledge markets symbol with _ | row₀
  · simp only [updateSignalModel, hget, dbCreateMarketKnowledge,
      dbUpdateMarketKnowledge]
    have hget₁ : assocGet (markets ++ [(symbol, ({ data := {} } : MarketRow))]) symbol
        = some { data := {} } :=
      assocGet_append_right markets symbol _ hget
    rw [hget₁]
    exact ⟨_, assocGet_assocSet_self _ _ _, [], _, rfl⟩
  · simp only [updateSignalModel, hget, dbUpdateMarketKnowledge]
    have hget' : assocGet markets symbol = some row₀ := hget
    rw [hget']
    refine ⟨_, assocGet_assocSet_self _ _ _, row₀.data.feedback_history.getD [],
      ⟨value, now, source.getD "unknown"⟩, ?_⟩
    simp [MarketData.merge, Option.orElse]

theorem updateTraderModel_cap (cfg : FeedbackConfig) (traders : TraderTable)
    (trader_id : String) (source : Option String) (value : ℚ) (now : String) :
    ∃ row, assocGet (updateTraderModel cfg traders (some trader_id) source value now)
        trader_id = some row
      ∧ ∃ old entry, row.data.feedback_history = some (cap100 (old ++ [entry])) := by
  rcases hget : dbGetTraderProfile traders trader_id with _ | row₀
  · simp only [updateTraderModel, hget, dbCreateTraderProfile,
      dbUpdateTraderProfile]
    have hget₁ : assocGet (traders ++ [(trader_id, ({ data := {} } : TraderRow))]) trader_id
        = some { data := {} } :=
      assocGet_append_right traders trader_id _ hget
    rw [hget₁]
    exact ⟨_, assocGet_assocSet_self _ _ _, [], _, rfl⟩
  · simp only [updateTraderModel, hget, dbUpdateTraderProfile]
    have hget' : assocGet traders trader_id = some row₀ := hget
    rw [hget']
    refine ⟨_, assocGet_assocSet_self _ _ _, row₀.data.feedback_history.getD [],
      ⟨value, now, source.getD "unknown"⟩, ?_⟩
    simp [TraderData.merge, Option.orElse]

theorem processTradeOutcome_history (cfg : FeedbackConfig) (st : FeedbackState)
    (tdata : TradeData) (oid now : String) :
    ∃ rec, (processTradeOutcome cfg st tdata oid now).2.feedback_history
      = st.feedback_history ++ [rec] := by
  simp only [processTradeOutcome]
  cases tdata.trader_id <;> exact ⟨_, rfl⟩

theorem processTradeOutcome_markets (cfg : FeedbackConfig) (st : FeedbackState)
    (tdata : TradeData) (oid now : String) :
    (processTradeOutcome cfg st tdata oid now).2.markets
      = updateSignalModel cfg st.markets (some (tdata.symbol.getD "")) none
          (calculateReward (tdata.outcome.getD "unknown") (tdata.profit_loss.getD 0))
          now := by
  simp only [processTradeOutcome]
  cases tdata.trader_id <;> rfl

theorem processTradeOutcome_traders (cfg : FeedbackConfig) (st : FeedbackState)
    (tdata : TradeData) (oid now : String) (tid : String)
    (h : tdata.trader_id = some tid) :
    (processTradeOutcome cfg st tdata oid now).2.traders
      = updateTraderModel cfg st.traders (some tid) none
          (calculateReward (tdata.outcome.getD "unknown") (tdata.profit_loss.getD 0))
          now := by
  simp only [processTradeOutcome, h]

theorem processUserFeedback_markets (cfg : FeedbackConfig) (st : FeedbackState)
    (fdata : FeedbackData) (fid now : String)
    (h : fdata.ftype = some "trade_signal") :
    (processUserFeedback cfg st fdata fid now).2.markets
      = updateSignalModel cfg st.markets fdata.symbol fdata.source
          (normalizeFeedbackValue (fdata.value.getD (FeedbackValue.q 0))) now := by
  simp [processUserFeedback, h]

theorem processUserFeedback_traders (cfg : FeedbackConfig) (st : FeedbackState)
    (fdata : FeedbackData) (fid now : String)
    (h : fdata.ftype = some "trader_reliability") :
    (processUserFeedback cfg st fdata fid now).2.traders
      = updateTraderModel cfg st.traders fdata.trader_id fdata.source
          (normalizeFeedbackValue (fdata.value.getD (FeedbackValue.q 0))) now := by
  simp [processUserFeedback, h]

/-- C4 amended: each completed `process_user_feedback` or
`process_trade_outcome` call appends exactly one record to the
engine's own in-memory feedback history, which is never capped; the
per-market and per-trader `feedback_history` lists touched by the call
— by a trade outcome, or by user feedback of type `trade_signal` or
`trader_reliability` — are capped at 100 entries with the oldest
dropped first. -/
theorem claim_C4_amended_feedback_caps (cfg : FeedbackConfig)
    (st : FeedbackState) (tdata : TradeData) (fdata : FeedbackData)
    (oid fid now : String) :
    (processTradeOutcome cfg st tdata oid now).2.feedback_history.length
        = st.feedback_history.length + 1
    ∧ (processUserFeedback cfg st fdata fid now).2.feedback_history.length
        = st.feedback_history.length + 1
    ∧ (∃ row, assocGet (processTradeOutcome cfg st tdata oid now).2.markets
          (tdata.symbol.getD "") = some row
        ∧ (row.data.feedback_history.getD []).length ≤ 100
        ∧ ∃ old entry, row.data.feedback_history = some (cap100 (old ++ [entry])))
    ∧ (∀ tid, tdata.trader_id = some tid →
        ∃ row, assocGet (processTradeOutcome cfg st tdata oid now).2.traders tid
            = some row
          ∧ (row.data.feedback_history.getD []).length ≤ 100
          ∧ ∃ old entry, row.data.feedback_history = some (cap100 (old ++ [entry])))
    ∧ (∀ sym, fdata.ftype = some "trade_signal" → fdata.symbol = some sym →
        ∃ row, assocGet (processUserFeedback cfg st fdata fid now).2.markets sym
            = some row
          ∧ (row.data.feedback_history.getD []).length ≤ 100
          ∧ ∃ old entry, row.data.feedback_history = some (cap100 (old ++ [entry])))
    ∧ (∀ tid, fdata.ftype = some "trader_reliability" →
        fdata.trader_id = some tid →
        ∃ row, assocGet (processUserFeedback cfg st fdata fid now).2.traders tid
            = some row
          ∧ (row.data.feedback_history.getD []).length ≤ 100
          ∧ ∃ old entry, row.data.feedback_history = some (cap100 (old ++ [entry]))) := by
  refine ⟨?_, ?_, ?_, ?_, ?_, ?_⟩
  · obtain ⟨rec, h⟩ := processTradeOutcome_history cfg st tdata oid now
    simp [h]
  · obtain ⟨rec, h⟩ := processUserFeedback_history cfg st fdata fid now
    simp [h]
  · rw [processTradeOutcome_markets]
    obtain ⟨row, hrow, old, entry, hfb⟩ := updateSignalModel_cap cfg st.markets
      (tdata.symbol.getD "") none _ now
    refine ⟨row, hrow, ?_, old, entry, hfb⟩
    rw [hfb]
    simpa using cap100_length (old ++ [entry])
  · intro tid htid
    rw [processTradeOutcome_traders cfg st tdata oid now tid htid]
    obtain ⟨row, hrow, old, entry, hfb⟩ := updateTraderModel_cap cfg st.traders
      tid none _ now
    refine ⟨row, hrow, ?_, old, entry, hfb⟩
    rw [hfb]
    simpa using cap100_length (old ++ [entry])
  · intro sym hft hsym
    rw [processUserFeedback_markets cfg st fdata fid now hft, hsym]
    obtain ⟨row, hrow, old, entry, hfb⟩ := updateSignalModel_cap cfg st.markets
      sym fdata.source _ now
    refine ⟨row, hrow, ?_, old, entry, hfb⟩
    rw [hfb]
    simpa using cap100_length (old ++ [entry])
  · intro tid hft htid
    rw [processUserFeedback_traders cfg st fdata fid now hft, htid]
    obtain ⟨row, hrow, old, entry, hfb⟩ := updateTraderModel_cap cfg st.traders
      tid fdata.source _ now
    refine ⟨row, hrow, ?_, old, entry, hfb⟩
    rw [hfb]
    simpa using cap100_length (old ++ [entry])

/-- Witness for C4's amended theorem at a concrete trade outcome
carrying a trader id and at concrete `trade_signal` user feedback,
from empty state. -/
theorem claim_C4_amended_witness :
    (({ symbol := some "AAPL", outcome := some "success",
        profit_loss := some 50, trader_id := some "t1" } : TradeData).trader_id
      = some "t1")
    ∧ (∃ row, assocGet (processTradeOutcome defaultFeedbackConfig initFeedbackState
          { symbol := some "AAPL", outcome := some "success",
            profit_loss := some 50, trader_id := some "t1" } "o1" "T").2.traders "t1"
          = some row
        ∧ (row.data.feedback_history.getD []).length ≤ 100
        ∧ ∃ old entry, row.data.feedback_history = some (cap100 (old ++ [entry])))
    ∧ (({ ftype := some "trade_signal", symbol := some "AAPL",
          value := some (FeedbackValue.q 1) } : FeedbackData).ftype
        = some "trade_signal")
    ∧ (∃ row, assocGet (processUserFeedback defaultFeedbackConfig initFeedbackState
          { ftype := some "trade_signal", symbol := some "AAPL",
            value := some (FeedbackValue.q 1) } "f1" "T").2.markets "AAPL"
          = some row
        ∧ (row.data.feedback_history.getD []).length ≤ 100
        ∧ ∃ old entry, row.data.feedback_history = some (cap100 (old ++ [entry]))) :=
  ⟨rfl,
    (claim_C4_amended_feedback_caps defaultFeedbackConfig initFeedbackState
      { symbol := some "AAPL", outcome := some "success",
        profit_loss := some 50, trader_id := some "t1" }
      { ftype := some "trade_signal", symbol := some "AAPL",
        value := some (FeedbackValue.q 1) } "o1" "f1" "T").2.2.2.1 "t1" rfl,
    rfl,
    (claim_C4_amended_feedback_caps defaultFeedbackConfig initFeedbackState
      { symbol := some "AAPL", outcome := some "success",
        profit_loss := some 50, trader_id := some "t1" }
      { ftype := some "trade_signal", symbol := some "AAPL",
        value := some (FeedbackValue.q 1) } "o1" "f1" "T").2.2.2.2.1 "AAPL" rfl rfl⟩

/-! ## Working memory (`agent_core/memory/memory.py`) and the memory
manager (`memory_systems/manager.py`)

External collaborators (the OpenAI embedding call and the Pinecone
index behind the episodic tier, and the SQL engine behind the
relational tables) are an environment of call outcomes.  The
relational failure flag is uniform — either every `db_manager` call in
the turn raises or none does — which models one failing persistence
layer; a tier operation therefore either completes or mutates
nothing. -/

/-- Fields of a dict-shaped turn input read by the manager. -/
structure InputDict where
  content : Option String := none
  trader_id : Option String := none
  symbol : Option String := none
  action : Option String := none

/-- Turn input: a plain string or a dict (the two shapes the source
branches on; the `str(...)` fallback is exercised by no claim). -/
inductive InputData where
  | txt (s : String) : InputData
  | dict (d : InputDict) : InputData

/-- Fields of a dict-shaped response read by the manager. -/
structure ResponseDict where
  content : Option String := none
  action_sequence : Option JVal := none
  tool : Option String := none
  parameters : Option JVal := none

/-- Turn response: possibly a dict (only `isinstance(response, dict)`
matters to the manager). -/
inductive ResponseData where
  | other : ResponseData
  | dict (d : ResponseDict) : ResponseData

/-- Fields of a dict-shaped result read by the manager. -/
structure ResultDict where
  outcome : Option String := none
  success : Option Bool := none

/-- Turn result: possibly a dict. -/
inductive ResultData where
  | other : ResultData
  | dict (d : ResultDict) : ResultData

/-- One conversation-history entry of `WorkingMemory`. -/
structure Interaction where
  input : InputData
  response : ResponseData
  result : ResultData
  timestamp : String

/-- State of a `WorkingMemory` instance
(`agent_core/memory/memory.py`). -/
structure WorkingMemoryState where
  conversation_history : List Interaction
  max_history : ℕ
  state : List (String × JVal)

/-- Model of `WorkingMemory.update` (`memory.py` lines 43-61): append
the interaction, then trim with `history[-self.max_history:]` when the
history grew past `max_history`.  At `max_history = 0` the Python
slice `[-0:]` is `[0:]`, a no-op, so nothing is ever trimmed. -/
def workingUpdate (wm : WorkingMemoryState) (input : InputData)
    (response : ResponseData) (result : ResultData) (now : String) :
    WorkingMemoryState :=
  let history := wm.conversation_history ++ [⟨input, response, result, now⟩]
  { wm with conversation_history :=
      if history.length > wm.max_history then
        if wm.max_history = 0 then history
        else history.drop (history.length - wm.max_history)
      else history }

/-- Collaborator failures observable by the manager. -/
inductive CollabErr where
  | episodic : CollabErr
  | db : CollabErr

/-- Per-call collaborator outcomes for one manager operation. -/
structure ManagerEnv where
  episodicRetrieve : Except CollabErr (List JVal)
  episodicStore : Except CollabErr String
  dbFail : Option CollabErr
  now : String

/-- A `db_manager` call under the environment: raises iff the
persistence layer is failing. -/
def dbTry {α : Type} (env : ManagerEnv) (a : α) : Except CollabErr α :=
  match env.dbFail with
  | some e => Except.error e
  | none => Except.ok a

/-- The `data` dict passed by `SemanticMemory.get_trader_profile` when
creating a missing profile (`semantic.py` lines 50-60): its
`reliability` key is a typed field; the counters and the nested blob
(whose `trade_history` sits one level below the key the readers use,
and is therefore never found by them) land in `extras`. -/
def semanticTraderDefaults : TraderData :=
  { reliability := some (1/2)
    extras := some (JVal.obj
      [("successful_trades", JVal.intg 0), ("failed_trades", JVal.intg 0),
       ("data", JVal.obj
         [("trade_history", JVal.arr []), ("preferences", JVal.obj []),
          ("notes", JVal.str "")])]) }

/-- The `data` dict passed by `SemanticMemory.get_market_knowledge`
when creating missing knowledge (`semantic.py` lines 169-178); the
nested blob (with its buried `trade_signals` list) is never read
back. -/
def semanticMarketDefaults (symbol : String) : MarketData :=
  { name := some symbol
    sector := some "Unknown"
    extras := some (JVal.obj
      [("data", JVal.obj
        [("price_history", JVal.arr []), ("trade_signals", JVal.arr []),
         ("notes", JVal.str "")])]) }

/-- Model of `SemanticMemory.get_trader_profile`
(`semantic.py` lines 32-65): cache, then store, then get-or-create. -/
def getTraderProfile (env : ManagerEnv) (cache : List (String × TraderRow))
    (traders : TraderTable) (trader_id : String) :
    Except CollabErr (TraderRow × List (String × TraderRow) × TraderTable) :=
  match assocGet cache trader_id with
  | some profile => Except.ok (profile, cache, traders)
  | none =>
      (dbTry env (dbGetTraderProfile traders trader_id)).bind fun got =>
        match got with
        | some profile => Except.ok (profile, dictSet cache trader_id profile, traders)
        | none =>
            (dbTry env (dbCreateTraderProfile traders trader_id
                semanticTraderDefaults)).map fun r =>
              (r.1, dictSet cache trader_id r.1, r.2)

/-- Model of `SemanticMemory.get_market_knowledge`
(`semantic.py` lines 151-183). -/
def getMarketKnowledge (env : ManagerEnv) (cache : List (String × MarketRow))
    (markets : MarketTable) (symbol : String) :
    Except CollabErr (MarketRow × List (String × MarketRow) × MarketTable) :=
  match assocGet cache symbol with
  | some knowledge => Except.ok (knowledge, cache, markets)
  | none =>
      (dbTry env (dbGetMarketKnowledge markets symbol)).bind fun got =>
        match got with
        | some knowledge => Except.ok (knowledge, dictSet cache symbol knowledge, markets)
        | none =>
            (dbTry env (dbCreateMarketKnowledge markets symbol
                (semanticMarketDefaults symbol))).map fun r =>
              (r.1, dictSet cache symbol r.1, r.2)

/-- Model of `SemanticMemory.update_trader_profile`
(`semantic.py` lines 67-88): load the profile (get-or-create), apply
the database update, refresh the cache when a row was updated. -/
def semUpdateTraderProfile (env : ManagerEnv) (cache : List (String × TraderRow))
    (traders : TraderTable) (trader_id : String) (upd : TraderUpdates) :
    Except CollabErr (List (String × TraderRow) × TraderTable) :=
  (getTraderProfile env cache traders trader_id).bind fun r =>
    (dbTry env (dbUpdateTraderProfile r.2.2 trader_id upd)).map fun u =>
      match u.1 with
      | some updated => (dictSet r.2.1 trader_id updated, u.2)
      | none => (r.2.1, u.2)

/-- Model of `SemanticMemory.update_market_knowledge`
(`semantic.py` lines 185-206). -/
def semUpdateMarketKnowledge (env : ManagerEnv) (cache : List (String × MarketRow))
    (markets : MarketTable) (symbol : String) (dataPatch : Option MarketData) :
    Except CollabErr (List (String × MarketRow) × MarketTable) :=
  (getMarketKnowledge env cache markets symbol).bind fun r =>
    (dbTry env (dbUpdateMarketKnowledge r.2.2 symbol dataPatch)).map fun u =>
      match u.1 with
      | some updated => (dictSet r.2.1 symbol updated, u.2)
      | none => (r.2.1, u.2)

/-- Model of `SemanticMemory.update_trader_reliability`
(`semantic.py` lines 90-119): bump the outcome counter, recompute the
reliability column as the success ratio when any trades are counted. -/
def updateTraderReliability (env : ManagerEnv) (cache : List (String × TraderRow))
    (traders : TraderTable) (trader_id : String) (outcome : String) :
    Except CollabErr (List (String × TraderRow) × TraderTable) :=
  (getTraderProfile env cache traders trader_id).bind fun r =>
    let profile := r.1
    let upd₁ : TraderUpdates :=
      if outcome = "success" then
        { successful_trades := some (profile.successful_trades + 1) }
      else if outcome = "failure" then
        { failed_trades := some (profile.failed_trades + 1) }
      else {}
    let s := upd₁.successful_trades.getD profile.successful_trades
    let f := upd₁.failed_trades.getD profile.failed_trades
    let total := s + f
    let upd₂ := if 0 < total then
        { upd₁ with reliability := some ((s : ℚ) / (total : ℚ)) }
      else upd₁
    semUpdateTraderProfile env r.2.1 r.2.2 trader_id upd₂

/-- Model of `SemanticMemory.add_trade_to_history`
(`semantic.py` lines 121-149). -/
def addTradeToHistory (env : ManagerEnv) (cache : List (String × TraderRow))
    (traders : TraderTable) (trader_id : String) (trade_data : JVal) :
    Except CollabErr (List (String × TraderRow) × TraderTable) :=
  (getTraderProfile env cache traders trader_id).bind fun r =>
    let trade_history := r.1.data.trade_history.getD []
    semUpdateTraderProfile env r.2.1 r.2.2 trader_id
      { data := some { trade_history := some (trade_history ++ [trade_data]) } }

/-- Model of `SemanticMemory.add_signal_to_market`
(`semantic.py` lines 208-236). -/
def addSignalToMarket (env : ManagerEnv) (cache : List (String × MarketRow))
    (markets : MarketTable) (symbol : String) (signal_data : JVal) :
    Except CollabErr (List (String × MarketRow) × MarketTable) :=
  (getMarketKnowledge env cache markets symbol).bind fun r =>
    let trade_signals := r.1.data.trade_signals.getD []
    semUpdateMarketKnowledge env r.2.1 r.2.2 symbol
      (some { trade_signals := some (trade_signals ++ [signal_data]) })

/-- Model of `DatabaseManager.get_action_patterns_by_type`
(`database.py` lines 429-447): rows of the type ordered by descending
effectiveness, limited. -/
def dbGetActionPatternsByType (tbl : PatternTable) (pattern_type : String)
    (limit : ℕ) : List PatternDict :=
  ((((tbl.filter (fun p => p.1.1 = pattern_type)).map (fun p => p.2)).insertionSort
      (fun a b : PatternRow => b.effectiveness ≤ a.effectiveness)).take limit).map
    PatternRow.toDict

/-- Model of `ProceduralMemory.get_most_effective_patterns`
(`procedural.py` lines 156-181). -/
def getMostEffectivePatterns (tbl : PatternTable) (pattern_type : String)
    (min_effectiveness : ℚ) (limit : ℕ) : List PatternDict :=
  let patterns := dbGetActionPatternsByType tbl pattern_type (limit * 2)
  ((patterns.filter (fun p => min_effectiveness ≤ p.effectiveness)).insertionSort
    (fun a b : PatternDict => b.effectiveness ≤ a.effectiveness)).take limit

/-- Model of `ProceduralMemory.get_relevant_patterns`
(`procedural.py` lines 183-223), as a pure function of the pattern
table (its several database reads all succeed or all fail with the
uniform persistence flag, applied by the caller). -/
def getRelevantPatterns (tbl : PatternTable) (context : InputDict) (limit : ℕ) :
    List PatternDict :=
  let pattern_types :=
    (match context.trader_id with
      | some t => ["trader:" ++ t]
      | none => []) ++
    (match context.symbol with
      | some s => ["symbol:" ++ s]
      | none => []) ++
    (match context.action with
      | some a => ["action:" ++ a]
      | none => []) ++ ["general"]
  let relevant_patterns :=
    (pattern_types.map (fun t => getMostEffectivePatterns tbl t (3/5) limit)).flatten
  (relevant_patterns.insertionSort
    (fun a b : PatternDict => b.effectiveness ≤ a.effectiveness)).take limit

/-- Configuration slice seen by the memory manager: the dedicated
working-tier history bound of the base agent configuration
(`AgentConfig.max_history`) alongside the `MemoryConfig` fan-out
limits. -/
structure ManagerConfig where
  max_history : ℕ
  max_episodic_memories : ℕ
  max_procedural_patterns : ℕ

/-- State owned by the non-working tiers: the two semantic caches, the
procedural cache, and the three relational tables behind them. -/
structure TierState where
  trader_cache : List (String × TraderRow)
  market_cache : List (String × MarketRow)
  pattern_cache : List (String × PatternDict)
  traders : TraderTable
  markets : MarketTable
  patterns : PatternTable

/-- State of a `MemoryManager` and its tiers. -/
structure ManagerState where
  cfg : ManagerConfig
  working : WorkingMemoryState
  tiers : TierState

/-- Model of `MemoryManager.__init__` (`manager.py` lines 27-44): the
working tier is constructed with
`WorkingMemory(max_history=config.max_episodic_memories)` — the
dedicated `max_history` option is not consulted. -/
def mkMemoryManager (cfg : ManagerConfig) : ManagerState :=
  { cfg := cfg
    working :=
      { conversation_history := []
        max_history := cfg.max_episodic_memories
        state := [] }
    tiers :=
      { trader_cache := [], market_cache := [], pattern_cache := []
        traders := [], markets := [], patterns := [] } }

/-- Model of `MemoryManager._get_embedding_text`
(`manager.py` lines 46-78). -/
def getEmbeddingText : InputData → String
  | InputData.txt s => s
  | InputData.dict d =>
      let text_parts :=
        (match d.content with
          | some c => [c]
          | none => []) ++
        (match d.trader_id with
          | some t => ["Trader: " ++ t]
          | none => []) ++
        (match d.symbol with
          | some s => ["Symbol: " ++ s]
          | none => []) ++
        (match d.action with
          | some a => ["Action: " ++ a]
          | none => [])
      String.intercalate " " text_parts

/-- The dict handed to `get_relevant_patterns`:
`current_input if isinstance(current_input, dict) else {}`. -/
def inputDictOf : InputData → InputDict
  | InputData.dict d => d
  | _ => {}

/-- The composite context assembled by `get_context`; absent trader or
market info is the empty dict. -/
structure CompositeContext where
  working_conversation : List Interaction
  working_state : List (String × JVal)
  similar_experiences : List JVal
  trader_info : Option TraderRow
  market_info : Option MarketRow
  action_patterns : List PatternDict

/-- Model of `MemoryManager.get_context` (`manager.py` lines 80-133):
working-memory read, episodic similarity retrieval, conditional
semantic get-or-create reads, procedural pattern read — with no
exception handling, so a failing call propagates and aborts the
remainder (state mutated so far is kept). -/
def getContext (env : ManagerEnv) (st : ManagerState) (input : InputData) :
    Except CollabErr CompositeContext × ManagerState :=
  match env.episodicRetrieve with
  | Except.error e => (Except.error e, st)
  | Except.ok similar_experiences =>
    let tstep : Except CollabErr (Option TraderRow × TierState) :=
      match input with
      | InputData.dict d =>
          match d.trader_id with
          | some tid =>
              (getTraderProfile env st.tiers.trader_cache st.tiers.traders tid).map
                fun r => (some r.1,
                  { st.tiers with trader_cache := r.2.1, traders := r.2.2 })
          | none => Except.ok (none, st.tiers)
      | _ => Except.ok (none, st.tiers)
    match tstep with
    | Except.error e => (Except.error e, st)
    | Except.ok (trader_info, ts₁) =>
      let mstep : Except CollabErr (Option MarketRow × TierState) :=
        match input with
        | InputData.dict d =>
            match d.symbol with
            | some sym =>
                (getMarketKnowledge env ts₁.market_cache ts₁.markets sym).map
                  fun r => (some r.1,
                    { ts₁ with market_cache := r.2.1, markets := r.2.2 })
            | none => Except.ok (none, ts₁)
        | _ => Except.ok (none, ts₁)
      match mstep with
      | Except.error e => (Except.error e, { st with tiers := ts₁ })
      | Except.ok (market_info, ts₂) =>
        match dbTry env (getRelevantPatterns ts₂.patterns (inputDictOf input)
            st.cfg.max_procedural_patterns) with
        | Except.error e => (Except.error e, { st with tiers := ts₂ })
        | Except.ok action_patterns =>
            (Except.ok
              { working_conversation := st.working.conversation_history
                working_state := st.working.state
                similar_experiences := similar_experiences
                trader_info := trader_info
                market_info := market_info
                action_patterns := action_patterns },
             { st with tiers := ts₂ })

/-- JSON rendering of a result payload for history entries. -/
def resultJson : ResultData → JVal
  | ResultData.other => JVal.null
  | ResultData.dict d => JVal.obj
      ((match d.outcome with
        | some o => [("outcome", JVal.str o)]
        | none => []) ++
       (match d.success with
        | some b => [("success", JVal.bool b)]
        | none => []))

/-- The `result.get("success", False) if isinstance(result, dict) else
False` flag passed to `store_pattern`. -/
def resultSuccess : ResultData → Bool
  | ResultData.dict d => d.success.getD false
  | _ => false

/-- Optional metadata dict of `update_memories` (only its `timestamp`
key is read). -/
structure MetaDict where
  timestamp : Option String := none

/-- The trade-history entry built in `update_memories`
(`manager.py` lines 177-182). -/
def tradeDataJson (symbol action : String) (metadata : Option MetaDict)
    (result : ResultData) : JVal :=
  JVal.obj
    [("symbol", JVal.str symbol), ("action", JVal.str action),
     ("timestamp", match metadata with
        | some m => match m.timestamp with
          | some ts => JVal.str ts
          | none => JVal.null
        | none => JVal.null),
     ("result", resultJson result)]

/-- The market-signal entry built in `update_memories`
(`manager.py` lines 191-196). -/
def signalDataJson (trader_id : Option String) (action : String)
    (metadata : Option MetaDict) (result : ResultData) : JVal :=
  JVal.obj
    [("trader_id", match trader_id with
        | some t => JVal.str t
        | none => JVal.null),
     ("action", JVal.str action),
     ("timestamp", match metadata with
        | some m => match m.timestamp with
          | some ts => JVal.str ts
          | none => JVal.null
        | none => JVal.null),
     ("result", resultJson result)]

/-- The tool-usage payload built in `update_memories`
(`manager.py` lines 212-215). -/
def toolDataJson (tool : String) (parameters : Option JVal) : JVal :=
  JVal.obj [("tool", JVal.str tool), ("parameters", parameters.getD (JVal.obj []))]

/-- The trader-side semantic updates of `update_memories`
(`manager.py` lines 164-183): reliability on an outcome-bearing
result, then the trade-history append when symbol and action are
present. -/
def semanticStepTrader (env : ManagerEnv) (ts : TierState) (d : InputDict)
    (result : ResultData) (metadata : Option MetaDict) :
    Except CollabErr TierState :=
  match d.trader_id with
  | none => Except.ok ts
  | some tid =>
    let step1 : Except CollabErr TierState :=
      match result with
      | ResultData.dict rd =>
          match rd.outcome with
          | some outcome =>
              (updateTraderReliability env ts.trader_cache ts.traders tid
                outcome).map fun r =>
                { ts with trader_cache := r.1, traders := r.2 }
          | none => Except.ok ts
      | _ => Except.ok ts
    step1.bind fun ts₁ =>
      match d.symbol, d.action with
      | some sym, some act =>
          (addTradeToHistory env ts₁.trader_cache ts₁.traders tid
            (tradeDataJson sym act metadata result)).map fun r =>
            { ts₁ with trader_cache := r.1, traders := r.2 }
      | _, _ => Except.ok ts₁

/-- The market-side semantic update of `update_memories`
(`manager.py` lines 185-197). -/
def semanticStepMarket (env : ManagerEnv) (ts : TierState) (d : InputDict)
    (result : ResultData) (metadata : Option MetaDict) :
    Except CollabErr TierState :=
  match d.symbol with
  | none => Except.ok ts
  | some sym =>
      match d.action with
      | some act =>
          (addSignalToMarket env ts.market_cache ts.markets sym
            (signalDataJson d.trader_id act metadata result)).map fun r =>
            { ts with market_cache := r.1, markets := r.2 }
      | none => Except.ok ts

/-- The procedural stores of `update_memories`
(`manager.py` lines 199-220). -/
def proceduralStep (env : ManagerEnv) (ts : TierState) (response : ResponseData)
    (result : ResultData) : Except CollabErr TierState :=
  let step1 : Except CollabErr TierState :=
    match response with
    | ResponseData.dict rd =>
        match rd.action_sequence with
        | some seq =>
            (dbTry env (storePattern ts.patterns ts.pattern_cache
              "action_sequence" seq (resultSuccess result))).map fun r =>
              { ts with patterns := r.2.1, pattern_cache := r.2.2 }
        | none => Except.ok ts
    | _ => Except.ok ts
  step1.bind fun ts₁ =>
    match response with
    | ResponseData.dict rd =>
        match rd.tool with
        | some tool =>
            (dbTry env (storePattern ts₁.patterns ts₁.pattern_cache
              "tool_usage" (toolDataJson tool rd.parameters)
              (resultSuccess result))).map fun r =>
              { ts₁ with patterns := r.2.1, pattern_cache := r.2.2 }
        | none => Except.ok ts₁
    | _ => Except.ok ts₁

/-- Model of `MemoryManager.update_memories`
(`manager.py` lines 135-220): the working-tier write is applied first
and unconditionally; the episodic store and the conditional
semantic/procedural writes follow with no exception handling, so a
failing tier aborts the remainder while earlier writes persist. -/
def updateMemories (env : ManagerEnv) (st : ManagerState) (input : InputData)
    (response : ResponseData) (result : ResultData)
    (metadata : Option MetaDict) : Except CollabErr Unit × ManagerState :=
  let working₁ := workingUpdate st.working input response result env.now
  match env.episodicStore with
  | Except.error e => (Except.error e, { st with working := working₁ })
  | Except.ok _ =>
      let tstep : Except CollabErr TierState :=
        (match input with
          | InputData.dict d =>
              (semanticStepTrader env st.tiers d result metadata).bind fun ts₁ =>
                semanticStepMarket env ts₁ d result metadata
          | _ => Except.ok st.tiers).bind fun ts₂ =>
          proceduralStep env ts₂ response result
      match tstep with
      | Except.error e => (Except.error e, { st with working := working₁ })
      | Except.ok ts₃ =>
          (Except.ok (), { st with working := working₁, tiers := ts₃ })

/-- An environment whose episodic similarity retrieval fails while
every other collaborator works. -/
def c1FailRetrieveEnv : ManagerEnv :=
  { episodicRetrieve := Except.error CollabErr.episodic
    episodicStore := Except.ok "exp_1"
    dbFail := none
    now := "T0" }

/-- An environment whose episodic store fails while every other
collaborator works. -/
def c1FailStoreEnv : ManagerEnv :=
  { episodicRetrieve := Except.ok []
    episodicStore := Except.error CollabErr.episodic
    dbFail := none
    now := "T0" }

/-- A turn input carrying trader and market identifiers. -/
def c1Input : InputData :=
  InputData.dict { trader_id := some "t1", symbol := some "AAPL" }

/-- C1 counterexample: with only the episodic tier failing, a
`get_context` call returns the propagated error — none of the other
tiers' results are returned — and an `update_memories` call aborts
with the propagated error instead of applying the remaining tiers'
writes. -/
theorem claim_C1_counterexample :
    getContext c1FailRetrieveEnv (mkMemoryManager ⟨10, 5, 3⟩) c1Input
      = (Except.error CollabErr.episodic, mkMemoryManager ⟨10, 5, 3⟩)
    ∧ (updateMemories c1FailStoreEnv (mkMemoryManager ⟨10, 5, 3⟩) c1Input
        ResponseData.other ResultData.other none).1
      = Except.error CollabErr.episodic :=
  ⟨rfl, rfl⟩

theorem getTraderProfile_isOk (env : ManagerEnv)
    (cache : List (String × TraderRow)) (tbl : TraderTable) (tid : String)
    (h : env.dbFail = none) :
    ∃ r, getTraderProfile env cache tbl tid = Except.ok r := by
  rcases hc : assocGet cache tid with _ | p
  · simp only [getTraderProfile, hc, dbTry, h]
    rcases hg : dbGetTraderProfile tbl tid with _ | p
    · simp [hg, Except.bind, Except.map]
    · simp [hg, Except.bind]
  · exact ⟨(p, cache, tbl), by simp [getTraderProfile, hc]⟩

theorem getMarketKnowledge_isOk (env : ManagerEnv)
    (cache : List (String × MarketRow)) (tbl : MarketTable) (sym : String)
    (h : env.dbFail = none) :
    ∃ r, getMarketKnowledge env cache tbl sym = Except.ok r := by
  rcases hc : assocGet cache sym with _ | p
  · simp only [getMarketKnowledge, hc, dbTry, h]
    rcases hg : dbGetMarketKnowledge tbl sym with _ | p
    · simp [hg, Except.bind, Except.map]
    · simp [hg, Except.bind]
  · exact ⟨(p, cache, tbl), by simp [getMarketKnowledge, hc]⟩

/-- C1 amended: MemoryManager performs no per-tier error degradation —
a failing tier propagates out of `get_context` / `update_memories` and
aborts the remainder of the call.  On a read, an episodic failure
yields the error and no composite context; on a write, the
working-tier append (which precedes the episodic store) persists while
every later tier's write is skipped.  When all collaborators succeed
the read completes with every tier's contribution. -/
theorem claim_C1_amended_tier_failure_aborts :
    (∀ (env : ManagerEnv) (st : ManagerState) (input : InputData) (e : CollabErr),
      env.episodicRetrieve = Except.error e →
      getContext env st input = (Except.error e, st))
    ∧ (∀ (env : ManagerEnv) (st : ManagerState) (input : InputData)
        (response : ResponseData) (result : ResultData) (md : Option MetaDict)
        (e : CollabErr),
      env.episodicStore = Except.error e →
      (updateMemories env st input response result md).1 = Except.error e
      ∧ (updateMemories env st input response result md).2.working
          = workingUpdate st.working input response result env.now
      ∧ (updateMemories env st input response result md).2.tiers = st.tiers)
    ∧ (∀ (env : ManagerEnv) (st : ManagerState) (input : InputData)
        (sims : List JVal),
      env.episodicRetrieve = Except.ok sims → env.dbFail = none →
      ∃ tinfo minfo pats stT,
        getContext env st input =
          (Except.ok
            { working_conversation := st.working.conversation_history
              working_state := st.working.state
              similar_experiences := sims
              trader_info := tinfo
              market_info := minfo
              action_patterns := pats }, stT)) := by
  refine ⟨?_, ?_, ?_⟩
  · intro env st input e h
    simp [getContext, h]
  · intro env st input response result md e h
    refine ⟨?_, ?_, ?_⟩ <;> simp [updateMemories, h]
  · intro env st input sims hr hdb
    rcases input with s | d
    · refine ⟨none, none,
        getRelevantPatterns st.tiers.patterns (inputDictOf (InputData.txt s))
          st.cfg.max_procedural_patterns, st, ?_⟩
      simp [getContext, hr, dbTry, hdb]
    · rcases htid : d.trader_id with _ | tid
      · rcases hsym : d.symbol with _ | sym
        · refine ⟨none, none,
            getRelevantPatterns st.tiers.patterns (inputDictOf (InputData.dict d))
              st.cfg.max_procedural_patterns, st, ?_⟩
          simp [getContext, hr, htid, hsym, dbTry, hdb]
        · obtain ⟨rm, hrm⟩ := getMarketKnowledge_isOk env st.tiers.market_cache
            st.tiers.markets sym hdb
          refine ⟨none, some rm.1,
            getRelevantPatterns st.tiers.patterns (inputDictOf (InputData.dict d))
              st.cfg.max_procedural_patterns,
            { st with tiers :=
              { st.tiers with market_cache := rm.2.1, markets := rm.2.2 } }, ?_⟩
          simp [getContext, hr, htid, hsym, hrm, dbTry, hdb, Except.map]
      · obtain ⟨rt, hrt⟩ := getTraderProfile_isOk env st.tiers.trader_cache
          st.tiers.traders tid hdb
        rcases hsym : d.symbol with _ | sym
        · refine ⟨some rt.1, none,
            getRelevantPatterns st.tiers.patterns (inputDictOf (InputData.dict d))
              st.cfg.max_procedural_patterns,
            { st with tiers :=
              { st.tiers with trader_cache := rt.2.1, traders := rt.2.2 } }, ?_⟩
          simp [getContext, hr, htid, hsym, hrt, dbTry, hdb, Except.map]
        · obtain ⟨rm, hrm⟩ := getMarketKnowledge_isOk env st.tiers.market_cache
            st.tiers.markets sym hdb
          refine ⟨some rt.1, some rm.1,
            getRelevantPatterns st.tiers.patterns (inputDictOf (InputData.dict d))
              st.cfg.max_procedural_patterns,
            { st with tiers :=
              ({ st.tiers with
                  trader_cache := rt.2.1
                  traders := rt.2.2
                  market_cache := rm.2.1
                  markets := rm.2.2 }) }, ?_⟩
          simp [getContext, hr, htid, hsym, hrt, hrm, dbTry, hdb, Except.map]

/-- Witness for C1's amended theorem: the failing-retrieve environment
aborts a concrete `get_context` call. -/
theorem claim_C1_amended_witness :
    c1FailRetrieveEnv.episodicRetrieve = Except.error CollabErr.episodic
    ∧ getContext c1FailRetrieveEnv (mkMemoryManager ⟨10, 5, 3⟩) c1Input
        = (Except.error CollabErr.episodic, mkMemoryManager ⟨10, 5, 3⟩) :=
  ⟨rfl, claim_C1_amended_tier_failure_aborts.1 c1FailRetrieveEnv
    (mkMemoryManager ⟨10, 5, 3⟩) c1Input CollabErr.episodic rfl⟩
/-- The arguments of one `update_memories` call. -/
structure UpdCall where
  env : ManagerEnv
  input : InputData
  response : ResponseData
  result : ResultData
  metadata : Option MetaDict

/-- The interaction record such a call appends to the working tier. -/
def interactionOf (c : UpdCall) : Interaction :=
  ⟨c.input, c.response, c.result, c.env.now⟩

/-- A sequence of `update_memories` calls, threading the manager state. -/
def runUpdates (st : ManagerState) (calls : List UpdCall) : ManagerState :=
  calls.foldl
    (fun s c => (updateMemories c.env s c.input c.response c.result c.metadata).2)
    st

theorem updateMemories_working (env : ManagerEnv) (st : ManagerState)
    (input : InputData) (response : ResponseData) (result : ResultData)
    (md : Option MetaDict) :
    (updateMemories env st input response result md).2.working
      = workingUpdate st.working input response result env.now := by
  rcases hs : env.episodicStore with e | v
  · simp [updateMemories, hs]
  · simp only [updateMemories, hs]
    split <;> rfl

theorem workingUpdate_length (wm : WorkingMemoryState) (input : InputData)
    (response : ResponseData) (result : ResultData) (now : String)
    (hpos : 0 < wm.max_history) :
    (workingUpdate wm input response result now).conversation_history.length
      = min (wm.conversation_history.length + 1) wm.max_history := by
  have h0 : ¬ wm.max_history = 0 := Nat.pos_iff_ne_zero.mp hpos
  by_cases h : (wm.conversation_history
      ++ [(⟨input, response, result, now⟩ : Interaction)]).length > wm.max_history
  · simp only [workingUpdate, if_pos h, if_neg h0, List.length_drop]
    simp only [List.length_append, List.length_cons, List.length_nil] at h ⊢
    omega
  · simp only [workingUpdate, if_neg h]
    simp only [List.length_append, List.length_cons, List.length_nil] at h ⊢
    omega

theorem workingUpdate_suffix (wm : WorkingMemoryState) (input : InputData)
    (response : ResponseData) (result : ResultData) (now : String) :
    (workingUpdate wm input response result now).conversation_history
      <:+ wm.conversation_history ++ [⟨input, response, result, now⟩] := by
  simp only [workingUpdate]
  split
  · split
    · exact List.suffix_refl _
    · exact List.drop_suffix _ _
  · exact List.suffix_refl _

theorem suffix_append_of_suffix {α : Type} {l₁ l₂ : List α} (l : List α)
    (h : l₁ <:+ l₂) : l₁ ++ l <:+ l₂ ++ l := by
  obtain ⟨t, ht⟩ := h
  exact ⟨t, by rw [← List.append_assoc, ht]⟩

theorem runUpdates_length (calls : List UpdCall) (st : ManagerState)
    (hpos : 0 < st.working.max_history)
    (h : st.working.conversation_history.length ≤ st.working.max_history) :
    (runUpdates st calls).working.max_history = st.working.max_history
    ∧ (runUpdates st calls).working.conversation_history.length
        = min (st.working.conversation_history.length + calls.length)
            st.working.max_history := by
  induction calls generalizing st with
  | nil =>
      refine ⟨rfl, ?_⟩
      simp only [runUpdates, List.foldl_nil, List.length_nil]
      omega
  | cons c cs ih =>
      have hw := updateMemories_working c.env st c.input c.response c.result c.metadata
      have hrun : runUpdates st (c :: cs)
          = runUpdates (updateMemories c.env st c.input c.response c.result
              c.metadata).2 cs := rfl
      have hmax : (updateMemories c.env st c.input c.response c.result
          c.metadata).2.working.max_history = st.working.max_history := by
        rw [hw]; rfl
      have hlen : (updateMemories c.env st c.input c.response c.result
            c.metadata).2.working.conversation_history.length
          = min (st.working.conversation_history.length + 1)
              st.working.max_history := by
        rw [hw, workingUpdate_length]
        exact hpos
      have hle : (updateMemories c.env st c.input c.response c.result
            c.metadata).2.working.conversation_history.length
          ≤ (updateMemories c.env st c.input c.response c.result
            c.metadata).2.working.max_history := by
        rw [hlen, hmax]; exact min_le_right _ _
      have hpos' : 0 < (updateMemories c.env st c.input c.response c.result
          c.metadata).2.working.max_history := by
        rw [hmax]; exact hpos
      obtain ⟨ih1, ih2⟩ := ih (updateMemories c.env st c.input c.response
        c.result c.metadata).2 hpos' hle
      rw [hrun]
      refine ⟨by rw [ih1, hmax], ?_⟩
      rw [ih2, hlen, hmax, List.length_cons]
      omega

theorem runUpdates_suffix (calls : List UpdCall) (st : ManagerState) :
    (runUpdates st calls).working.conversation_history
      <:+ st.working.conversation_history ++ calls.map interactionOf := by
  induction calls generalizing st with
  | nil => simp [runUpdates]
  | cons c cs ih =>
      have hw := updateMemories_working c.env st c.input c.response c.result c.metadata
      have h₁ : (updateMemories c.env st c.input c.response c.result
            c.metadata).2.working.conversation_history
          <:+ st.working.conversation_history ++ [interactionOf c] := by
        rw [hw]
        exact workingUpdate_suffix st.working c.input c.response c.result c.env.now
      have h₂ := ih (updateMemories c.env st c.input c.response c.result c.metadata).2
      have h₃ := suffix_append_of_suffix (cs.map interactionOf) h₁
      have h₄ := h₂.trans h₃
      have hrun : runUpdates st (c :: cs)
          = runUpdates (updateMemories c.env st c.input c.response c.result
              c.metadata).2 cs := rfl
      rw [hrun]
      simpa [List.append_assoc] using h₄

/-- An environment where every collaborator succeeds. -/
def c9Env : ManagerEnv :=
  { episodicRetrieve := Except.ok []
    episodicStore := Except.ok "exp_9"
    dbFail := none
    now := "T0" }

/-- C9 counterexample: with `max_episodic_memories = 0` the Python
trim `history[-self.max_history:]` is the no-op slice `[-0:]`, so one
completed `update_memories` call from a fresh manager leaves 1 > 0
entries in the working history — the claimed
`min (number of calls) max_episodic_memories` bound fails. -/
theorem claim_C9_counterexample :
    (mkMemoryManager ⟨10, 0, 3⟩).working.max_history = 0
    ∧ (runUpdates (mkMemoryManager ⟨10, 0, 3⟩)
        [⟨c9Env, InputData.txt "hi", ResponseData.other, ResultData.other,
          none⟩]).working.conversation_history.length = 1
    ∧ min 1 (0 : ℕ) = 0 :=
  ⟨rfl, rfl, rfl⟩

/-- C9 amended: the manager builds its WorkingMemory with
`max_history = config.max_episodic_memories`, and that value is
preserved by every `update_memories` call; provided
`max_episodic_memories` is positive (at zero, Python's `[-0:]` slice
never trims), after any sequence of calls from a fresh manager the
working conversation history holds exactly
`min (number of calls) max_episodic_memories` entries — so it never
exceeds `max_episodic_memories` — and is a suffix of the full
interaction sequence, i.e. the oldest entries are the ones trimmed.
The bound is `cfg.max_episodic_memories` for every value of the
dedicated `cfg.max_history` option, which plays no role. -/
theorem claim_C9_amended_working_capacity (cfg : ManagerConfig)
    (calls : List UpdCall) (hpos : 0 < cfg.max_episodic_memories) :
    (mkMemoryManager cfg).working.max_history = cfg.max_episodic_memories
    ∧ (runUpdates (mkMemoryManager cfg) calls).working.max_history
        = cfg.max_episodic_memories
    ∧ (runUpdates (mkMemoryManager cfg) calls).working.conversation_history.length
        = min calls.length cfg.max_episodic_memories
    ∧ (runUpdates (mkMemoryManager cfg) calls).working.conversation_history
        <:+ calls.map interactionOf := by
  have h0 : (mkMemoryManager cfg).working.conversation_history.length
      ≤ (mkMemoryManager cfg).working.max_history := by
    simp [mkMemoryManager]
  have hp : 0 < (mkMemoryManager cfg).working.max_history := hpos
  obtain ⟨h1, h2⟩ := runUpdates_length calls (mkMemoryManager cfg) hp h0
  refine ⟨rfl, by rw [h1]; rfl, ?_, ?_⟩
  · rw [h2]; simp [mkMemoryManager]
  · have h3 := runUpdates_suffix calls (mkMemoryManager cfg)
    simpa [mkMemoryManager] using h3

/-- Witness for C9's amended theorem at a concrete positive capacity:
one call from a fresh manager with capacity 5 leaves exactly one
entry. -/
theorem claim_C9_amended_witness :
    (0 : ℕ) < 5
    ∧ ((mkMemoryManager ⟨10, 5, 3⟩).working.max_history = 5
      ∧ (runUpdates (mkMemoryManager ⟨10, 5, 3⟩)
          [⟨c9Env, InputData.txt "hi", ResponseData.other, ResultData.other,
            none⟩]).working.max_history = 5
      ∧ (runUpdates (mkMemoryManager ⟨10, 5, 3⟩)
          [⟨c9Env, InputData.txt "hi", ResponseData.other, ResultData.other,
            none⟩]).working.conversation_history.length = min 1 5
      ∧ (runUpdates (mkMemoryManager ⟨10, 5, 3⟩)
          [⟨c9Env, InputData.txt "hi", ResponseData.other, ResultData.other,
            none⟩]).working.conversation_history
          <:+ [interactionOf ⟨c9Env, InputData.txt "hi", ResponseData.other,
                ResultData.other, none⟩]) :=
  ⟨by decide,
    claim_C9_amended_working_capacity ⟨10, 5, 3⟩
      [⟨c9Env, InputData.txt "hi", ResponseData.other, ResultData.other, none⟩]
      (by decide)⟩
